import Mathlib

/-!
Verification development for the compiler middle-end in src/ir.cpp
(IR construction and IR analysis passes).  C++ functions are shallowly
embedded as Lean functions over a reduced but faithful data universe;
each definition's doc comment names the C++ source function and lines
it translates.  Machine size_t is modelled as Nat with the sentinel
SIZE_MAX = 2^64 - 1.
-/

namespace ZigIr

/-- Model of the C SIZE_MAX sentinel used by the source for "no index" /
"no mem slot" / "stop analyzing". -/
def SIZE_MAX : Nat := 2 ^ 64 - 1

/-- Model of TypeTableEntry (the type ids relevant to the claims).
A slice (a struct with is_slice set whose field 0 is a pointer to the
element type and field 1 a usize length) is modelled by the dedicated
constructor sliceT.  Interned types mean pointer equality of
TypeTableEntry values coincides with structural equality here. -/
inductive ZigType where
  | invalid : ZigType
  | void : ZigType
  | boolT : ZigType
  | unreachableT : ZigType
  | metaType : ZigType
  | int : Bool → Nat → ZigType          -- is_signed, bit_count
  | float : Nat → ZigType               -- bit_count
  | numLitInt : ZigType
  | numLitFloat : ZigType
  | undefLit : ZigType
  | nullLit : ZigType
  | pureError : ZigType
  | pointer : ZigType → Bool → ZigType  -- child_type, is_const
  | array : ZigType → Nat → ZigType     -- child_type, len
  | maybeT : ZigType → ZigType          -- child_type
  | errorUnion : ZigType → ZigType      -- child_type
  | sliceT : ZigType → Bool → ZigType   -- element type, is_const
deriving DecidableEq, Repr

/-- The usize type: a 64-bit unsigned integer on the modelled target
(the codegen builtin entry_usize). -/
def usizeT : ZigType := ZigType.int false 64

/-- Erase pointer/slice constness from a type, recursively. -/
def canonType : ZigType → ZigType
  | .pointer child _ => .pointer (canonType child) false
  | .array child n => .array (canonType child) n
  | .maybeT child => .maybeT (canonType child)
  | .errorUnion child => .errorUnion (canonType child)
  | .sliceT child _ => .sliceT (canonType child) false
  | t => t

/-- Modelled from the spec: types_match_const_cast_only lives in
analyze.cpp, which is not part of this repository snapshot.  The spec
describes it as the "exact structural match modulo pointer const"
equality used by coercion (spec section 3 and coercion rule 1), so it
is modelled as structural equality after erasing constness. -/
def types_match_const_cast_only (expected actual : ZigType) : Bool :=
  canonType expected == canonType actual

/-- Kind tag of a big number payload (BigNumKindInt / BigNumKindFloat). -/
inductive BigNumKind where
  | int : BigNumKind
  | float : BigNumKind
deriving DecidableEq, Repr

/-- Arbitrary precision number payload.  The claims only ever inspect
integer payloads, so the payload is a mathematical integer; a float
payload is distinguished only by its kind tag. -/
structure BigNum where
  kind : BigNumKind
  intVal : Int
deriving DecidableEq, Repr

/-- Modelled from the spec: bignum_fits_in_bits lives in bignum.cpp,
not part of this snapshot.  The spec (section 9) describes it as the
"fits in N bits, signed?" predicate, i.e. the usual two's complement /
unsigned range check. -/
def bignum_fits_in_bits (b : BigNum) (bit_count : Nat) (is_signed : Bool) : Bool :=
  if is_signed then
    decide (-(2 ^ (bit_count - 1) : Int) ≤ b.intVal ∧ b.intVal < 2 ^ (bit_count - 1))
  else
    decide (0 ≤ b.intVal ∧ b.intVal < 2 ^ bit_count)

/-- The three specialness states of a ConstExprValue. -/
inductive ConstSpecial where
  | runtime : ConstSpecial
  | static : ConstSpecial
  | undef : ConstSpecial
deriving DecidableEq, Repr

mutual
/-- Model of ConstExprValue: specialness, depends_on_compile_var, and
the union payload. -/
inductive ConstExprValue where
  | mk : ConstSpecial → Bool → ConstData → ConstExprValue

/-- Model of the ConstExprValue payload union.  Only the members the
claims touch are modelled; reading a member other than the one stored
is undefined behavior in C and is modelled as Option.none by the
accessors below. -/
inductive ConstData where
  | noPayload : ConstData
  | xBignum : BigNum → ConstData
  | xBool : Bool → ConstData
  | xPtr : PtrBase → Nat → ConstData      -- base_ptr, index
  | xArray : List ConstExprValue → ConstData
  | xStruct : List ConstExprValue → ConstData
  | xType : ZigType → ConstData

/-- A C pointer ConstExprValue *base_ptr either aliases a variable mem
slot of the executable being analyzed (mutable storage) or points at
an already-computed immutable value. -/
inductive PtrBase where
  | toSlot : Nat → PtrBase
  | toValue : ConstExprValue → PtrBase
end

/-- Specialness field accessor. -/
def ConstExprValue.special : ConstExprValue → ConstSpecial
  | .mk s _ _ => s

/-- depends_on_compile_var field accessor. -/
def ConstExprValue.dependsOnCompileVar : ConstExprValue → Bool
  | .mk _ d _ => d

/-- Payload accessor. -/
def ConstExprValue.data : ConstExprValue → ConstData
  | .mk _ _ d => d

/-- A runtime ConstExprValue (ConstValSpecialRuntime, no payload). -/
def runtimeVal : ConstExprValue := .mk .runtime false .noPayload

/-- Identity of the analyzed instruction as far as the claims need it:
which variant created it (IrInstructionId) together with the payload
fields the analyzer reads back. -/
inductive IrInstOrigin where
  | varPtrInst : Nat → IrInstOrigin   -- IrInstructionIdVarPtr, var mem_slot_index
  | fieldPtrInst : IrInstOrigin
  | elemPtrInst : IrInstOrigin
  | otherInst : IrInstOrigin
deriving DecidableEq, Repr

/-- Model of an analyzed IrInstruction: its variant, its result type
and its static value (the fields read through the other cross-link). -/
structure IrInst where
  id : IrInstOrigin
  type_entry : ZigType
  static_value : ConstExprValue

/-- Result of ir_types_match_with_implicit_cast. -/
inductive ImplicitCastMatchResult where
  | no : ImplicitCastMatchResult
  | yes : ImplicitCastMatchResult
  | reportedError : ImplicitCastMatchResult
deriving DecidableEq, Repr

/-- Translation of ir_num_lit_fits_in_other_type (ir.cpp 2801-2836).
get_underlying_type is the identity on this universe (no TypeDecl).
The error message the C function emits on failure is tracked by the
callers that thread an error list; the fit decision itself is pure. -/
def ir_num_lit_fits_in_other_type (instruction : IrInst) (other_type : ZigType) : Bool :=
  match other_type with
  | .invalid => false
  | .float _ => true
  | .int is_signed bit_count =>
    match instruction.static_value.data with
    | .xBignum b => b.kind == BigNumKind.int && bignum_fits_in_bits b bit_count is_signed
    | _ => false
  | .numLitFloat =>
    match instruction.static_value.data with
    | .xBignum b => b.kind == BigNumKind.float
    | _ => false
  | .numLitInt =>
    match instruction.static_value.data with
    | .xBignum b => b.kind == BigNumKind.int
    | _ => false
  | _ => false

/-- Body of ir_types_match_with_implicit_cast (ir.cpp 2918-3007) as a
sequential rule chain.  The C function calls itself on the child type
inside the maybe-wrap and error-union-wrap conditions; that recursive
result is factored out as the parameter recChild (read only in those
two branches, which fire only when the expected type is a maybe or an
error union), so the chain itself is not recursive.  The C recursive
call appears in boolean context, so any non-No result (Yes or
ReportedError) counts as a match there. -/
def castChain (recChild : ImplicitCastMatchResult) (expected actual : ZigType)
    (value : IrInst) : ImplicitCastMatchResult :=
  if types_match_const_cast_only expected actual then .yes
  -- implicit conversion from non maybe type to maybe type
  else if (match expected with
    | .maybeT _ => recChild != ImplicitCastMatchResult.no
    | _ => false) then .yes
  -- implicit conversion from null literal to maybe type
  else if (match expected with
    | .maybeT _ => actual == ZigType.nullLit
    | _ => false) then .yes
  -- implicit conversion from error child type to error type
  else if (match expected with
    | .errorUnion _ => recChild != ImplicitCastMatchResult.no
    | _ => false) then .yes
  -- implicit conversion from pure error to error union type
  else if (match expected with
    | .errorUnion _ => actual == ZigType.pureError
    | _ => false) then .yes
  -- implicit widening conversion
  else if (match expected, actual with
    | .int es eb, .int as2 ab => es == as2 && decide (ab ≤ eb)
    | _, _ => false) then .yes
  -- small enough unsigned ints can get casted to large enough signed ints
  else if (match expected, actual with
    | .int es eb, .int as2 ab => es && !as2 && decide (ab < eb)
    | _, _ => false) then .yes
  -- implicit float widening conversion
  else if (match expected, actual with
    | .float eb, .float ab => decide (ab ≤ eb)
    | _, _ => false) then .yes
  -- implicit array to slice conversion
  else if (match expected, actual with
    | .sliceT schild _, .array achild _ =>
      types_match_const_cast_only schild achild
    | _, _ => false) then .yes
  -- implicit number literal to typed number
  else if actual == ZigType.numLitFloat || actual == ZigType.numLitInt then
    (if ir_num_lit_fits_in_other_type value expected then .yes
     else .reportedError)
  -- implicit undefined literal to anything
  else if actual == ZigType.undefLit then .yes
  else .no

/-- Translation of ir_types_match_with_implicit_cast (ir.cpp
2918-3007): the rule chain above, with the recursive call on the child
type supplied when the expected type is a maybe or an error union (for
any other expected type the two branches reading it are dead, so an
arbitrary No is passed). -/
def ir_types_match_with_implicit_cast : ZigType → ZigType → IrInst →
    ImplicitCastMatchResult
  | .maybeT child, actual, value =>
    castChain (ir_types_match_with_implicit_cast child actual value)
      (.maybeT child) actual value
  | .errorUnion child, actual, value =>
    castChain (ir_types_match_with_implicit_cast child actual value)
      (.errorUnion child) actual value
  | expected, actual, value => castChain .no expected actual value

/-- C2: for distinct sized integer types, the implicit cast from actual
type A to expected type E is accepted exactly when E and A have the
same signedness and E is at least as wide, or A is unsigned, E is
signed and E is strictly wider; every other distinct integer pair is
answered No. -/
theorem c2_int_pair_implicit_cast (es as2 : Bool) (eb ab : Nat) (v : IrInst)
    (hne : ZigType.int es eb ≠ ZigType.int as2 ab) :
    ir_types_match_with_implicit_cast (.int es eb) (.int as2 ab) v =
      (if (es = as2 ∧ ab ≤ eb) ∨ (es = true ∧ as2 = false ∧ ab < eb)
       then .yes else .no) := by
  have hcanon : types_match_const_cast_only (.int es eb) (.int as2 ab) = false := by
    simp only [types_match_const_cast_only, canonType]
    simpa using hne
  rw [ir_types_match_with_implicit_cast, castChain]
  case x_3 => exact fun c h => ZigType.noConfusion h
  case x_4 => exact fun c h => ZigType.noConfusion h
  rcases es with _ | _ <;> rcases as2 with _ | _ <;>
    by_cases hle : ab ≤ eb <;> by_cases hlt : ab < eb <;>
      simp [hcanon, hle, hlt]

/-- Witness instantiating c2_int_pair_implicit_cast at u8 expected,
u16 actual (a narrowing pair, answered No). -/
theorem c2_int_pair_implicit_cast_witness :
    ZigType.int false 8 ≠ ZigType.int false 16 ∧
    ir_types_match_with_implicit_cast (.int false 8) (.int false 16)
      ⟨.otherInst, .int false 16, runtimeVal⟩ =
      (if (false = false ∧ 16 ≤ 8) ∨ (false = true ∧ false = false ∧ 16 < 8)
       then .yes else .no) :=
  ⟨by decide, c2_int_pair_implicit_cast false false 8 16 _ (by decide)⟩

/-- Model of an IrBasicBlock as the analyzer reads it: its debug id
and its reference count (number of branches targeting it). -/
structure IrBasicBlockM where
  debug_id : Nat
  ref_count : Nat
deriving DecidableEq, Repr

/-- An instruction appended to the verified executable (the new_irb
current basic block), reduced to the fields the claims observe. -/
inductive EmittedInstr where
  | brTo : Nat → EmittedInstr                         -- dest block debug id
  | condBrTo : ConstSpecial → Nat → Nat → EmittedInstr -- condition specialness, then, else
  | unreachableEmit : EmittedInstr
  | varPtrEmit : Nat → EmittedInstr                   -- variable mem slot index
  | storePtrEmit : EmittedInstr
  | varDeclEmit : EmittedInstr
  | constEmit : ConstExprValue → EmittedInstr         -- from ir_build_const_from
  | elemPtrEmit : Bool → EmittedInstr                 -- safety_check_on
  | loadPtrEmit : EmittedInstr
  | castEmit : ZigType → EmittedInstr                 -- wanted type

/-- Model of the IrAnalyze state: the new executable counters and
invalid flag, the block queue cursor, the old basic block being
analyzed, the const predecessor, the mem slot vector of the execution
context, the instructions emitted into the verified executable, and
the diagnostic sink. -/
structure IraState where
  backward_branch_count : Nat
  backward_branch_quota : Nat
  invalid : Bool
  block_queue_index : Nat
  old_bb_queue : List IrBasicBlockM
  current_bb : IrBasicBlockM
  const_predecessor_bb : Option IrBasicBlockM
  instruction_index : Nat
  mem_slots : List ConstExprValue
  emitted : List EmittedInstr
  errors : List String

/-- Translation of add_node_error as the analyzer uses it: record the
message in the diagnostic sink (source nodes are not modelled). -/
def addError (s : IraState) (msg : String) : IraState :=
  { s with errors := s.errors ++ [msg] }

/-- Translation of ir_start_bb (ir.cpp 3065-3072): reset the
instruction cursor, make old_bb current and record the const
predecessor.  The append of the already-created new block to the new
executable block list is block bookkeeping, not instruction emission,
and is not observed by any claim. -/
def ir_start_bb (s : IraState) (old_bb : IrBasicBlockM)
    (const_predecessor_bb : Option IrBasicBlockM) : IraState :=
  { s with instruction_index := 0, current_bb := old_bb,
           const_predecessor_bb := const_predecessor_bb }

/-- Translation of ir_unreach_error (ir.cpp 3085-3089): push the block
queue cursor past any possible queue length and mark the new
executable invalid; returns the unreachable type. -/
def ir_unreach_error (s : IraState) : IraState × ZigType :=
  ({ s with block_queue_index := SIZE_MAX, invalid := true },
   ZigType.unreachableT)

/-- Translation of ir_inline_bb (ir.cpp 3091-3103): count a backward
branch whenever the target block's debug id is at most the current
block's, report the quota error past the quota, and otherwise continue
analysis inside the target with the current block as const
predecessor. -/
def ir_inline_bb (s : IraState) (old_bb : IrBasicBlockM) : IraState × ZigType :=
  if old_bb.debug_id ≤ s.current_bb.debug_id then
    let s1 := { s with backward_branch_count := s.backward_branch_count + 1 }
    if s1.backward_branch_count > s1.backward_branch_quota then
      let s2 := addError s1
        (s!"evaluation exceeded {s1.backward_branch_quota} backwards branches")
      ir_unreach_error s2
    else
      (ir_start_bb s1 old_bb (some s.current_bb), ZigType.unreachableT)
  else
    (ir_start_bb s old_bb (some s.current_bb), ZigType.unreachableT)

/-- Translation of ir_get_new_bb (ir.cpp 3042-3063): create the new
basic block and enqueue the old one unless that already happened
(old_bb->other is non-null exactly for enqueued blocks).  The phi
pre-walk enqueues phi predecessors first; the blocks the claims
exercise have no leading phis, so it appends nothing here. -/
def ir_get_new_bb (s : IraState) (old_bb : IrBasicBlockM) : IraState :=
  if (s.old_bb_queue.map IrBasicBlockM.debug_id).contains old_bb.debug_id then s
  else { s with old_bb_queue := s.old_bb_queue ++ [old_bb] }

/-- Translation of ir_finish_bb (ir.cpp 3074-3083): advance the block
queue cursor and start analyzing the next queued block, if any. -/
def ir_finish_bb (s : IraState) : IraState :=
  let s1 := { s with block_queue_index := s.block_queue_index + 1 }
  match s1.old_bb_queue.get? s1.block_queue_index with
  | some old_bb => ir_start_bb s1 old_bb none
  | none => s1

/-- Translation of ir_finish_anal (ir.cpp 3105-3109). -/
def ir_finish_anal (s : IraState) (result_type : ZigType) : IraState × ZigType :=
  if result_type = ZigType.unreachableT then (ir_finish_bb s, result_type)
  else (s, result_type)

/-- Repeated analysis of an inlined branch whose target is the block
old_bb: the abstract interpreter state after n such back edges (the
shape of an inline loop that never terminates). -/
def inlineLoopIter (bb : IrBasicBlockM) (s : IraState) : Nat → IraState
  | 0 => s
  | n + 1 => (ir_inline_bb (inlineLoopIter bb s n) bb).1

/-- Invariant of the quota-counting loop used by c1 below: after k
back edges with k within the quota, the counter reads k, nothing was
reported and the target block has become the current block. -/
theorem inlineLoopIter_invariant (s0 : IraState) (bb : IrBasicBlockM)
    (hcount : s0.backward_branch_count = 0)
    (hinv : s0.invalid = false)
    (herr : s0.errors = [])
    (hback : bb.debug_id ≤ s0.current_bb.debug_id) :
    ∀ k, k ≤ s0.backward_branch_quota →
      (inlineLoopIter bb s0 k).backward_branch_count = k ∧
      (inlineLoopIter bb s0 k).backward_branch_quota = s0.backward_branch_quota ∧
      (inlineLoopIter bb s0 k).invalid = false ∧
      (inlineLoopIter bb s0 k).errors = [] ∧
      (inlineLoopIter bb s0 k).old_bb_queue = s0.old_bb_queue ∧
      bb.debug_id ≤ (inlineLoopIter bb s0 k).current_bb.debug_id ∧
      (inlineLoopIter bb s0 k).emitted = s0.emitted := by
  intro k
  induction k with
  | zero => intro hk
            exact ⟨hcount, rfl, hinv, herr, rfl, hback, rfl⟩
  | succ n ih =>
    intro hk
    obtain ⟨hc, hq, hi, he, hqueue, hcur, hemit⟩ := ih (Nat.le_of_succ_le hk)
    have hcond : ¬ s0.backward_branch_quota < n + 1 := by omega
    simp [inlineLoopIter, ir_inline_bb, ir_start_bb, hcur, hc, hq, hi, he,
      hqueue, hemit, hcond]

/-- C1: an inlined branch increments the backward branch counter
exactly when its target block's debug id is at most the current
block's; within the quota no error is reported, and on back edge
number quota + 1 the analyzer reports "evaluation exceeded N backwards
branches", marks the new executable invalid and moves the block queue
cursor to SIZE_MAX, which is not below any possible queue length, so
the analysis loop stops; no instruction is emitted by any of this. -/
theorem c1_backward_branch_quota (s0 : IraState) (bb : IrBasicBlockM)
    (hcount : s0.backward_branch_count = 0)
    (hinv : s0.invalid = false)
    (herr : s0.errors = [])
    (hback : bb.debug_id ≤ s0.current_bb.debug_id)
    (hlen : s0.old_bb_queue.length < SIZE_MAX) :
    (∀ s1 bb2, (ir_inline_bb s1 bb2).1.backward_branch_count =
      (if bb2.debug_id ≤ s1.current_bb.debug_id
       then s1.backward_branch_count + 1 else s1.backward_branch_count)) ∧
    (∀ k, k ≤ s0.backward_branch_quota →
      (inlineLoopIter bb s0 k).invalid = false ∧
      (inlineLoopIter bb s0 k).errors = [] ∧
      (inlineLoopIter bb s0 k).backward_branch_count = k) ∧
    (inlineLoopIter bb s0 (s0.backward_branch_quota + 1)).invalid = true ∧
    (inlineLoopIter bb s0 (s0.backward_branch_quota + 1)).errors =
      [s!"evaluation exceeded {s0.backward_branch_quota} backwards branches"] ∧
    (inlineLoopIter bb s0 (s0.backward_branch_quota + 1)).block_queue_index
      = SIZE_MAX ∧
    ¬ ((inlineLoopIter bb s0 (s0.backward_branch_quota + 1)).block_queue_index
        < (inlineLoopIter bb s0 (s0.backward_branch_quota + 1)).old_bb_queue.length) ∧
    (inlineLoopIter bb s0 (s0.backward_branch_quota + 1)).emitted = s0.emitted := by
  have hmain := inlineLoopIter_invariant s0 bb hcount hinv herr hback
  refine ⟨?_, ?_, ?_⟩
  · intro s1 bb2
    by_cases h : bb2.debug_id ≤ s1.current_bb.debug_id
    · simp only [ir_inline_bb, h, if_true]
      by_cases hover : s1.backward_branch_count + 1 > s1.backward_branch_quota <;>
        simp [hover, ir_unreach_error, addError, ir_start_bb]
    · simp [ir_inline_bb, h, ir_start_bb]
  · intro k hk
    obtain ⟨hc, _, hi, he, _, _, _⟩ := hmain k hk
    exact ⟨hi, he, hc⟩
  · obtain ⟨hc, hq, hi, he, hqueue, hcur, hemit⟩ :=
      hmain s0.backward_branch_quota (Nat.le_refl _)
    have hover : (inlineLoopIter bb s0 s0.backward_branch_quota).backward_branch_count
        + 1 > (inlineLoopIter bb s0 s0.backward_branch_quota).backward_branch_quota := by
      rw [hc, hq]; omega
    simp only [inlineLoopIter, ir_inline_bb, hcur, if_true]
    simp only [gt_iff_lt] at hover
    refine ⟨?_, ?_, ?_, ?_, ?_⟩ <;>
      (simp [hover, hq, ir_unreach_error, addError, he, hc, hemit, hqueue, hlen];
        try omega)

/-- Witness instantiating c1_backward_branch_quota: quota 2, a self
loop on block 1; three back edges trip the error. -/
theorem c1_backward_branch_quota_witness :
    (({ backward_branch_count := 0, backward_branch_quota := 2,
        invalid := false, block_queue_index := 0,
        old_bb_queue := [⟨1, 2⟩], current_bb := ⟨1, 2⟩,
        const_predecessor_bb := none, instruction_index := 0,
        mem_slots := [], emitted := [], errors := [] } : IraState).backward_branch_count = 0) ∧
    (inlineLoopIter ⟨1, 2⟩
      { backward_branch_count := 0, backward_branch_quota := 2,
        invalid := false, block_queue_index := 0,
        old_bb_queue := [⟨1, 2⟩], current_bb := ⟨1, 2⟩,
        const_predecessor_bb := none, instruction_index := 0,
        mem_slots := [], emitted := [], errors := [] } 3).invalid = true := by
  refine ⟨rfl, ?_⟩
  have h := c1_backward_branch_quota
    { backward_branch_count := 0, backward_branch_quota := 2,
      invalid := false, block_queue_index := 0,
      old_bb_queue := [⟨1, 2⟩], current_bb := ⟨1, 2⟩,
      const_predecessor_bb := none, instruction_index := 0,
      mem_slots := [], emitted := [], errors := [] } ⟨1, 2⟩
    rfl rfl rfl (by decide) (by decide)
  exact h.2.2.1

/-- Rendering of a type's stable name buffer, used in diagnostics. -/
def typeName : ZigType → String
  | .invalid => "(invalid)"
  | .void => "void"
  | .boolT => "bool"
  | .unreachableT => "unreachable"
  | .metaType => "type"
  | .int is_signed bit_count =>
    (if is_signed then "i" else "u") ++ toString bit_count
  | .float bit_count => "f" ++ toString bit_count
  | .numLitInt => "(integer literal)"
  | .numLitFloat => "(float literal)"
  | .undefLit => "(undefined)"
  | .nullLit => "(null)"
  | .pureError => "error"
  | .pointer child is_const =>
    "&" ++ (if is_const then "const " else "") ++ typeName child
  | .array child n => "[" ++ toString n ++ "]" ++ typeName child
  | .maybeT child => "?" ++ typeName child
  | .errorUnion child => "%" ++ typeName child
  | .sliceT child is_const =>
    "[]" ++ (if is_const then "const " else "") ++ typeName child

/-- Translation of ir_resolve_cast (ir.cpp 3015-3031) for the cast
operations the implicit-cast paths of this development reach (only
CastOpNoop arises): a non-runtime operand folds to a constant of the
wanted type whose payload is copied (eval_const_expr_implicit_cast for
CastOpNoop; that helper lives in analyze.cpp, modelled from the spec's
round-trip rule), a runtime operand becomes a runtime cast
instruction. -/
def ir_resolve_cast (s : IraState) (value : IrInst) (wanted_type : ZigType) :
    IraState × IrInst :=
  if value.static_value.special ≠ ConstSpecial.runtime then
    (s, { id := .otherInst, type_entry := wanted_type,
          static_value := value.static_value })
  else
    ({ s with emitted := s.emitted ++ [.castEmit wanted_type] },
     { id := .otherInst, type_entry := wanted_type, static_value := runtimeVal })

/-- Translation of ir_analyze_cast (ir.cpp 3218-3476) restricted to
the branches reachable from implicit-cast acceptance in this
development: the const-cast match branch and the undefined-literal
branch (both CastOpNoop) and the final invalid-cast diagnostic.  The
explicit-only cast branches in between (bool/int, pointer/int, int and
float resizing, arrays, slices, enums, errors) are never reached
through ir_get_casted_value on this universe and are not modelled; a
call reaching them returns none. -/
def ir_analyze_cast (s : IraState) (wanted_type : ZigType) (value : IrInst) :
    IraState × Option IrInst :=
  let actual_type := value.type_entry
  if wanted_type = ZigType.invalid ∨ actual_type = ZigType.invalid then (s, none)
  else if types_match_const_cast_only wanted_type actual_type then
    let r := ir_resolve_cast s value wanted_type
    (r.1, some r.2)
  else if actual_type = ZigType.undefLit then
    let r := ir_resolve_cast s value wanted_type
    (r.1, some r.2)
  else
    (addError s (s!"invalid cast from type {typeName actual_type} to {typeName wanted_type}"),
     none)

/-- Translation of ir_get_casted_value (ir.cpp 3478-3507).  The C
null expected_type is an Option.none here; the C invalid_instruction
result is Option.none.  The pointer-equality match test on interned
types is structural equality here. -/
def ir_get_casted_value (s : IraState) (value : IrInst)
    (expected_type : Option ZigType) : IraState × Option IrInst :=
  match expected_type with
  | none => (s, some value) -- anything will do
  | some expected =>
    if expected = value.type_entry then (s, some value) -- match
    else if value.type_entry = ZigType.unreachableT then (s, some value)
    else
      match ir_types_match_with_implicit_cast expected value.type_entry value with
      | .no =>
        (addError s (s!"expected type {typeName expected}, found {typeName value.type_entry}"),
         none)
      | .yes => ir_analyze_cast s expected value
      | .reportedError => (s, none)

/-- Translation of ir_resolve_const (ir.cpp 3165-3172). -/
def ir_resolve_const (s : IraState) (value : IrInst) :
    IraState × Option ConstExprValue :=
  if value.static_value.special ≠ ConstSpecial.static then
    (addError s "unable to evaluate constant expression", none)
  else (s, some value.static_value)

/-- Translation of ir_resolve_bool (ir.cpp 3577-3591).  The C
invalid_instruction carries the invalid type, so the none returned by
ir_get_casted_value is caught by the type-invalid test.  Reading
x_bool of a payload that is not a bool is a union misread and yields
none. -/
def ir_resolve_bool (s : IraState) (value : IrInst) : IraState × Option Bool :=
  if value.type_entry = ZigType.invalid then (s, none)
  else
    match ir_get_casted_value s value (some ZigType.boolT) with
    | (s1, none) => (s1, none)
    | (s1, some casted_value) =>
      if casted_value.type_entry = ZigType.invalid then (s1, none)
      else
        match ir_resolve_const s1 casted_value with
        | (s2, none) => (s2, none)
        | (s2, some const_val) =>
          match const_val.data with
          | .xBool b => (s2, some b)
          | _ => (s2, none)

/-- Model of an IrInstructionBr: destination block and inline flag. -/
structure IrInstBr where
  dest_block : IrBasicBlockM
  is_inline : Bool

/-- Translation of ir_analyze_instruction_br (ir.cpp 4607-4617). -/
def ir_analyze_instruction_br (s : IraState) (br : IrInstBr) : IraState × ZigType :=
  let old_dest_block := br.dest_block
  if br.is_inline || old_dest_block.ref_count == 1 then
    ir_inline_bb s old_dest_block
  else
    let s1 := ir_get_new_bb s old_dest_block
    let s2 := { s1 with emitted := s1.emitted ++ [.brTo old_dest_block.debug_id] }
    ir_finish_anal s2 ZigType.unreachableT

/-- Model of an IrInstructionCondBr: analyzed condition (read through
other), the two destination blocks and the inline flag. -/
structure IrInstCondBr where
  condition : IrInst
  then_block : IrBasicBlockM
  else_block : IrBasicBlockM
  is_inline : Bool

/-- Translation of ir.cpp 4636-4645: the runtime tail of
ir_analyze_instruction_cond_br (bool-cast the condition, create both
new blocks, emit the conditional branch).  Both the static-but-not-
inlinable path and the runtime path of the C function fall through to
this code. -/
def condBrRuntime (s : IraState) (cb : IrInstCondBr) (condition : IrInst) :
    IraState × ZigType :=
  match ir_get_casted_value s condition (some ZigType.boolT) with
  | (s1, none) => ir_unreach_error s1
  | (s1, some casted_condition) =>
    let s2 := ir_get_new_bb s1 cb.then_block
    let s3 := ir_get_new_bb s2 cb.else_block
    let s4 := { s3 with emitted := s3.emitted ++
      [.condBrTo casted_condition.static_value.special
        cb.then_block.debug_id cb.else_block.debug_id] }
    ir_finish_anal s4 ZigType.unreachableT

/-- Translation of ir_analyze_instruction_cond_br (ir.cpp 4619-4646). -/
def ir_analyze_instruction_cond_br (s : IraState) (cb : IrInstCondBr) :
    IraState × ZigType :=
  let condition := cb.condition
  if condition.type_entry = ZigType.invalid then ir_unreach_error s
  else if cb.is_inline || condition.static_value.special != ConstSpecial.runtime then
    match ir_resolve_bool s condition with
    | (s1, none) => ir_unreach_error s1
    | (s1, some cond_is_true) =>
      let old_dest_block := if cond_is_true then cb.then_block else cb.else_block
      if cb.is_inline || old_dest_block.ref_count == 1 then
        ir_inline_bb s1 old_dest_block
      else condBrRuntime s1 cb condition
  else condBrRuntime s cb condition

/-- Helper: ir_inline_bb never emits an instruction. -/
theorem ir_inline_bb_emitted (s : IraState) (bb : IrBasicBlockM) :
    (ir_inline_bb s bb).1.emitted = s.emitted := by
  by_cases h : bb.debug_id ≤ s.current_bb.debug_id
  · by_cases h2 : s.backward_branch_quota < s.backward_branch_count + 1 <;>
      simp [ir_inline_bb, h, h2, ir_start_bb, ir_unreach_error, addError]
  · simp [ir_inline_bb, h, ir_start_bb]

/-- Helper: when the quota is not tripped (a forward target, or room
left in the quota), ir_inline_bb continues analysis in the target with
the previous current block as const predecessor. -/
theorem ir_inline_bb_continues (s : IraState) (bb : IrBasicBlockM)
    (h : s.current_bb.debug_id < bb.debug_id ∨
      s.backward_branch_count + 1 ≤ s.backward_branch_quota) :
    (ir_inline_bb s bb).1.current_bb = bb ∧
    (ir_inline_bb s bb).1.const_predecessor_bb = some s.current_bb ∧
    (ir_inline_bb s bb).1.instruction_index = 0 ∧
    (ir_inline_bb s bb).1.invalid = s.invalid := by
  by_cases hcond : bb.debug_id ≤ s.current_bb.debug_id
  · have hroom : ¬ s.backward_branch_quota < s.backward_branch_count + 1 := by
      omega
    simp [ir_inline_bb, hcond, hroom, ir_start_bb]
  · simp [ir_inline_bb, hcond, ir_start_bb]

/-- Helper: ir_get_new_bb does not change the emitted instructions. -/
theorem ir_get_new_bb_emitted (s : IraState) (bb : IrBasicBlockM) :
    (ir_get_new_bb s bb).emitted = s.emitted := by
  unfold ir_get_new_bb; split <;> rfl

/-- Helper: ir_finish_bb does not change the emitted instructions. -/
theorem ir_finish_bb_emitted (s : IraState) :
    (ir_finish_bb s).emitted = s.emitted := by
  unfold ir_finish_bb
  cases hg : s.old_bb_queue[s.block_queue_index + 1]? <;>
    simp [hg, ir_start_bb]

/-- Helper: ir_finish_anal does not change the emitted instructions. -/
theorem ir_finish_anal_emitted (s : IraState) (t : ZigType) :
    (ir_finish_anal s t).1.emitted = s.emitted := by
  unfold ir_finish_anal; split <;> simp [ir_finish_bb_emitted]

/-- C9: an unconditional branch whose destination has reference count
exactly 1 is inlined even without any inline flag: no Br instruction
is emitted and (when it does not trip the backward-branch quota)
analysis continues inside the destination with the current block as
const predecessor; a runtime Br is emitted exactly when the branch is
not inline and the destination's reference count differs from 1. -/
theorem c9_br_refcount_one_inlines (s : IraState) (br : IrInstBr) :
    ((ir_analyze_instruction_br s br).1.emitted =
      s.emitted ++ (if br.is_inline = false ∧ br.dest_block.ref_count ≠ 1
                    then [.brTo br.dest_block.debug_id] else [])) ∧
    (br.dest_block.ref_count = 1 →
      s.current_bb.debug_id < br.dest_block.debug_id ∨
        s.backward_branch_count + 1 ≤ s.backward_branch_quota →
      (ir_analyze_instruction_br s br).1.current_bb = br.dest_block ∧
      (ir_analyze_instruction_br s br).1.const_predecessor_bb = some s.current_bb ∧
      (ir_analyze_instruction_br s br).1.instruction_index = 0 ∧
      (ir_analyze_instruction_br s br).1.invalid = s.invalid) := by
  constructor
  · by_cases hinl : br.is_inline = true <;>
      by_cases href : br.dest_block.ref_count = 1 <;>
        simp only [ir_analyze_instruction_br, hinl, href, if_true, if_false,
          Bool.true_or, Bool.false_or, beq_iff_eq, ite_true, ite_false,
          ir_inline_bb_emitted, Bool.not_eq_true] <;>
        simp [ir_inline_bb_emitted, ir_finish_anal_emitted, ir_get_new_bb_emitted,
          hinl, href]
  · intro href hnoabort
    have hstep : ir_analyze_instruction_br s br = ir_inline_bb s br.dest_block := by
      simp [ir_analyze_instruction_br, href]
    rw [hstep]
    exact ir_inline_bb_continues s br.dest_block hnoabort

/-- Witness instantiating c9_br_refcount_one_inlines: a non-inline
branch to a fresh block of reference count 1. -/
theorem c9_br_refcount_one_inlines_witness :
    (let s : IraState :=
      { backward_branch_count := 0, backward_branch_quota := 1000,
        invalid := false, block_queue_index := 0,
        old_bb_queue := [⟨0, 1⟩], current_bb := ⟨0, 1⟩,
        const_predecessor_bb := none, instruction_index := 3,
        mem_slots := [], emitted := [], errors := [] }
     let br : IrInstBr := { dest_block := ⟨5, 1⟩, is_inline := false }
     ((ir_analyze_instruction_br s br).1.emitted =
       s.emitted ++ (if br.is_inline = false ∧ br.dest_block.ref_count ≠ 1
                     then [.brTo br.dest_block.debug_id] else [])) ∧
     (br.dest_block.ref_count = 1 →
       s.current_bb.debug_id < br.dest_block.debug_id ∨
         s.backward_branch_count + 1 ≤ s.backward_branch_quota →
       (ir_analyze_instruction_br s br).1.current_bb = br.dest_block ∧
       (ir_analyze_instruction_br s br).1.const_predecessor_bb = some s.current_bb ∧
       (ir_analyze_instruction_br s br).1.instruction_index = 0 ∧
       (ir_analyze_instruction_br s br).1.invalid = s.invalid)) :=
  c9_br_refcount_one_inlines _ _

/-- C5 counterexample: a conditional branch with a Static (true)
condition, not inline, whose chosen successor has reference count 2.
The claim says such a branch is inlined with no branch instruction
emitted; the analyzer instead emits a runtime CondBr (and does not
set a const predecessor). -/
theorem c5_condbr_counterexample :
    (ir_analyze_instruction_cond_br
      { backward_branch_count := 0, backward_branch_quota := 1000,
        invalid := false, block_queue_index := 0,
        old_bb_queue := [⟨0, 1⟩], current_bb := ⟨0, 1⟩,
        const_predecessor_bb := none, instruction_index := 0,
        mem_slots := [], emitted := [], errors := [] }
      { condition := ⟨.otherInst, ZigType.boolT,
          .mk .static false (.xBool true)⟩,
        then_block := ⟨1, 2⟩, else_block := ⟨2, 1⟩,
        is_inline := false }).1.emitted =
      [.condBrTo ConstSpecial.static 1 2] ∧
    (ir_analyze_instruction_cond_br
      { backward_branch_count := 0, backward_branch_quota := 1000,
        invalid := false, block_queue_index := 0,
        old_bb_queue := [⟨0, 1⟩], current_bb := ⟨0, 1⟩,
        const_predecessor_bb := none, instruction_index := 0,
        mem_slots := [], emitted := [], errors := [] }
      { condition := ⟨.otherInst, ZigType.boolT,
          .mk .static false (.xBool true)⟩,
        then_block := ⟨1, 2⟩, else_block := ⟨2, 1⟩,
        is_inline := false }).1.const_predecessor_bb = none :=
  ⟨rfl, rfl⟩

/-- C5 amended: a conditional branch with a Static bool condition is
inlined into the chosen successor (no branch emitted; when the quota
is not tripped, analysis continues there with the current block as
const predecessor) exactly when additionally the instruction is inline
or the chosen successor's reference count is 1; otherwise a runtime
CondBr instruction is emitted on the (Static) condition. -/
theorem c5_condbr_static_amended (s : IraState) (cb : IrInstCondBr)
    (dep : Bool) (b : Bool)
    (htype : cb.condition.type_entry = ZigType.boolT)
    (hval : cb.condition.static_value = .mk .static dep (.xBool b)) :
    ((cb.is_inline = true ∨ (if b then cb.then_block else cb.else_block).ref_count = 1) →
      ir_analyze_instruction_cond_br s cb =
        ir_inline_bb s (if b then cb.then_block else cb.else_block) ∧
      (ir_analyze_instruction_cond_br s cb).1.emitted = s.emitted ∧
      (s.current_bb.debug_id < (if b then cb.then_block else cb.else_block).debug_id ∨
        s.backward_branch_count + 1 ≤ s.backward_branch_quota →
       (ir_analyze_instruction_cond_br s cb).1.current_bb =
          (if b then cb.then_block else cb.else_block) ∧
       (ir_analyze_instruction_cond_br s cb).1.const_predecessor_bb =
          some s.current_bb)) ∧
    (cb.is_inline = false →
      (if b then cb.then_block else cb.else_block).ref_count ≠ 1 →
      (ir_analyze_instruction_cond_br s cb).1.emitted =
        s.emitted ++ [.condBrTo ConstSpecial.static
          cb.then_block.debug_id cb.else_block.debug_id]) := by
  have hnotinvalid : cb.condition.type_entry ≠ ZigType.invalid := by
    rw [htype]; exact fun h => ZigType.noConfusion h
  have hspecial : cb.condition.static_value.special = ConstSpecial.static := by
    rw [hval]; rfl
  have hresolve : ir_resolve_bool s cb.condition = (s, some b) := by
    simp only [ir_resolve_bool, ir_get_casted_value, ir_resolve_const,
      htype, hval]
    simp [htype, hval, ConstExprValue.special, ConstExprValue.data]
  have hstep : ir_analyze_instruction_cond_br s cb =
      (if cb.is_inline || (if b then cb.then_block else cb.else_block).ref_count == 1
       then ir_inline_bb s (if b then cb.then_block else cb.else_block)
       else condBrRuntime s cb cb.condition) := by
    simp only [ir_analyze_instruction_cond_br, hnotinvalid, if_false, hspecial]
    simp [hresolve]
  constructor
  · intro hinl
    have hcond : (cb.is_inline ||
        (if b then cb.then_block else cb.else_block).ref_count == 1) = true := by
      rcases hinl with h | h <;> simp [h]
    rw [hstep, if_pos hcond]
    refine ⟨rfl, ir_inline_bb_emitted _ _, fun hab => ?_⟩
    obtain ⟨h1, h2, _, _⟩ := ir_inline_bb_continues s
      (if b then cb.then_block else cb.else_block) hab
    exact ⟨h1, h2⟩
  · intro hninl href
    have hcond : (cb.is_inline ||
        (if b then cb.then_block else cb.else_block).ref_count == 1) = false := by
      simp [hninl, href]
    rw [hstep, if_neg (by simp [hcond])]
    simp only [condBrRuntime, ir_get_casted_value, htype]
    simp [hval, ir_finish_anal_emitted, ir_get_new_bb_emitted,
      ConstExprValue.special]

/-- Witness instantiating c5_condbr_static_amended on an inline-true
static-false branch. -/
theorem c5_condbr_static_amended_witness :
    (let s : IraState :=
      { backward_branch_count := 0, backward_branch_quota := 1000,
        invalid := false, block_queue_index := 0,
        old_bb_queue := [⟨0, 1⟩], current_bb := ⟨0, 1⟩,
        const_predecessor_bb := none, instruction_index := 0,
        mem_slots := [], emitted := [], errors := [] }
     let cb : IrInstCondBr :=
      { condition := ⟨.otherInst, ZigType.boolT,
          .mk .static false (.xBool false)⟩,
        then_block := ⟨1, 2⟩, else_block := ⟨2, 1⟩,
        is_inline := true }
     ((cb.is_inline = true ∨ (if false then cb.then_block else cb.else_block).ref_count = 1) →
      ir_analyze_instruction_cond_br s cb =
        ir_inline_bb s (if false then cb.then_block else cb.else_block) ∧
      (ir_analyze_instruction_cond_br s cb).1.emitted = s.emitted ∧
      (s.current_bb.debug_id < (if false then cb.then_block else cb.else_block).debug_id ∨
        s.backward_branch_count + 1 ≤ s.backward_branch_quota →
       (ir_analyze_instruction_cond_br s cb).1.current_bb =
          (if false then cb.then_block else cb.else_block) ∧
       (ir_analyze_instruction_cond_br s cb).1.const_predecessor_bb =
          some s.current_bb)) ∧
     (cb.is_inline = false →
      (if false then cb.then_block else cb.else_block).ref_count ≠ 1 →
      (ir_analyze_instruction_cond_br s cb).1.emitted =
        s.emitted ++ [.condBrTo ConstSpecial.static
          cb.then_block.debug_id cb.else_block.debug_id])) :=
  c5_condbr_static_amended _ _ false false rfl rfl

/-- The IrInstructionId variant tags, as enumerated exhaustively by
the switch of ir_has_side_effects (ir.cpp 6365-6421). -/
inductive IrInstructionId where
  | IrInstructionIdInvalid
  | IrInstructionIdBr
  | IrInstructionIdCondBr
  | IrInstructionIdSwitchBr
  | IrInstructionIdDeclVar
  | IrInstructionIdStorePtr
  | IrInstructionIdCall
  | IrInstructionIdReturn
  | IrInstructionIdUnreachable
  | IrInstructionIdSetFnTest
  | IrInstructionIdSetFnVisible
  | IrInstructionIdSetDebugSafety
  | IrInstructionIdImport
  | IrInstructionIdPhi
  | IrInstructionIdUnOp
  | IrInstructionIdBinOp
  | IrInstructionIdLoadPtr
  | IrInstructionIdConst
  | IrInstructionIdCast
  | IrInstructionIdContainerInitList
  | IrInstructionIdContainerInitFields
  | IrInstructionIdStructInit
  | IrInstructionIdFieldPtr
  | IrInstructionIdElemPtr
  | IrInstructionIdVarPtr
  | IrInstructionIdTypeOf
  | IrInstructionIdToPtrType
  | IrInstructionIdPtrTypeChild
  | IrInstructionIdArrayLen
  | IrInstructionIdStructFieldPtr
  | IrInstructionIdEnumFieldPtr
  | IrInstructionIdArrayType
  | IrInstructionIdSliceType
  | IrInstructionIdCompileVar
  | IrInstructionIdSizeOf
  | IrInstructionIdTestNull
  | IrInstructionIdUnwrapMaybe
  | IrInstructionIdClz
  | IrInstructionIdCtz
  | IrInstructionIdSwitchVar
  | IrInstructionIdSwitchTarget
  | IrInstructionIdEnumTag
  | IrInstructionIdStaticEval
  | IrInstructionIdRef
  | IrInstructionIdAsm
deriving DecidableEq, Repr

/-- Old instruction as the analyzer main loop inspects it for dead
code pruning: variant id, reference count, and the has_side_effects
flag carried by Asm instructions (read only when the id is Asm). -/
structure IrInstructionM where
  iid : IrInstructionId
  ref_count : Nat
  asm_has_side_effects : Bool

/-- Translation of ir_has_side_effects (ir.cpp 6365-6421).  The C
switch hits zig_unreachable on IrInstructionIdInvalid; no instruction
with that id ever reaches this function, and the value returned for it
here is arbitrary (guarded by a hypothesis in the theorem below). -/
def ir_has_side_effects (instruction : IrInstructionM) : Bool :=
  match instruction.iid with
  | .IrInstructionIdInvalid => true
  | .IrInstructionIdBr => true
  | .IrInstructionIdCondBr => true
  | .IrInstructionIdSwitchBr => true
  | .IrInstructionIdDeclVar => true
  | .IrInstructionIdStorePtr => true
  | .IrInstructionIdCall => true
  | .IrInstructionIdReturn => true
  | .IrInstructionIdUnreachable => true
  | .IrInstructionIdSetFnTest => true
  | .IrInstructionIdSetFnVisible => true
  | .IrInstructionIdSetDebugSafety => true
  | .IrInstructionIdImport => true
  | .IrInstructionIdPhi => false
  | .IrInstructionIdUnOp => false
  | .IrInstructionIdBinOp => false
  | .IrInstructionIdLoadPtr => false
  | .IrInstructionIdConst => false
  | .IrInstructionIdCast => false
  | .IrInstructionIdContainerInitList => false
  | .IrInstructionIdContainerInitFields => false
  | .IrInstructionIdStructInit => false
  | .IrInstructionIdFieldPtr => false
  | .IrInstructionIdElemPtr => false
  | .IrInstructionIdVarPtr => false
  | .IrInstructionIdTypeOf => false
  | .IrInstructionIdToPtrType => false
  | .IrInstructionIdPtrTypeChild => false
  | .IrInstructionIdArrayLen => false
  | .IrInstructionIdStructFieldPtr => false
  | .IrInstructionIdEnumFieldPtr => false
  | .IrInstructionIdArrayType => false
  | .IrInstructionIdSliceType => false
  | .IrInstructionIdCompileVar => false
  | .IrInstructionIdSizeOf => false
  | .IrInstructionIdTestNull => false
  | .IrInstructionIdUnwrapMaybe => false
  | .IrInstructionIdClz => false
  | .IrInstructionIdCtz => false
  | .IrInstructionIdSwitchVar => false
  | .IrInstructionIdSwitchTarget => false
  | .IrInstructionIdEnumTag => false
  | .IrInstructionIdStaticEval => false
  | .IrInstructionIdRef => false
  | .IrInstructionIdAsm => instruction.asm_has_side_effects

/-- Translation of the dead-code pruning test of the ir_analyze main
loop (ir.cpp 6341-6344): an old instruction is skipped entirely
(cursor advanced, nothing analyzed, nothing emitted) exactly when this
is true. -/
def analyzeSkipsInstruction (instruction : IrInstructionM) : Bool :=
  instruction.ref_count == 0 && !(ir_has_side_effects instruction)

/-- The side-effecting instruction ids as the claim lists them. -/
def sideEffectIds : List IrInstructionId :=
  [.IrInstructionIdBr, .IrInstructionIdCondBr, .IrInstructionIdSwitchBr,
   .IrInstructionIdDeclVar, .IrInstructionIdStorePtr, .IrInstructionIdCall,
   .IrInstructionIdReturn, .IrInstructionIdUnreachable,
   .IrInstructionIdSetFnTest, .IrInstructionIdSetFnVisible,
   .IrInstructionIdSetDebugSafety, .IrInstructionIdImport]

/-- C6: the analyzer main loop skips an old instruction iff its
reference count is zero and it has no observable side effects, and the
side-effecting instructions are exactly Br, CondBr, SwitchBr, DeclVar,
StorePtr, Call, Return, Unreachable, SetFnTest, SetFnVisible,
SetDebugSafety, Import, and Asm with its has-side-effects flag set;
every other variant is side-effect free. -/
theorem c6_dead_code_skip (i : IrInstructionM)
    (h : i.iid ≠ IrInstructionId.IrInstructionIdInvalid) :
    (analyzeSkipsInstruction i = true ↔
      (i.ref_count = 0 ∧
        ¬ (i.iid ∈ sideEffectIds ∨
           (i.iid = IrInstructionId.IrInstructionIdAsm ∧
            i.asm_has_side_effects = true)))) ∧
    (ir_has_side_effects i = true ↔
      (i.iid ∈ sideEffectIds ∨
       (i.iid = IrInstructionId.IrInstructionIdAsm ∧
        i.asm_has_side_effects = true))) := by
  obtain ⟨iid, rc, af⟩ := i
  cases iid <;>
    simp_all [analyzeSkipsInstruction, ir_has_side_effects, sideEffectIds]

/-- Witness instantiating c6_dead_code_skip at an unreferenced Const
instruction (skipped) . -/
theorem c6_dead_code_skip_witness :
    ({ iid := .IrInstructionIdConst, ref_count := 0,
       asm_has_side_effects := false } : IrInstructionM).iid ≠
      IrInstructionId.IrInstructionIdInvalid ∧
    ((analyzeSkipsInstruction
        { iid := .IrInstructionIdConst, ref_count := 0,
          asm_has_side_effects := false } = true ↔
      (({ iid := .IrInstructionIdConst, ref_count := 0,
          asm_has_side_effects := false } : IrInstructionM).ref_count = 0 ∧
        ¬ (({ iid := .IrInstructionIdConst, ref_count := 0,
              asm_has_side_effects := false } : IrInstructionM).iid ∈ sideEffectIds ∨
           (({ iid := .IrInstructionIdConst, ref_count := 0,
               asm_has_side_effects := false } : IrInstructionM).iid =
              IrInstructionId.IrInstructionIdAsm ∧
            ({ iid := .IrInstructionIdConst, ref_count := 0,
               asm_has_side_effects := false } : IrInstructionM).asm_has_side_effects = true)))) ∧
     (ir_has_side_effects
        { iid := .IrInstructionIdConst, ref_count := 0,
          asm_has_side_effects := false } = true ↔
      (({ iid := .IrInstructionIdConst, ref_count := 0,
          asm_has_side_effects := false } : IrInstructionM).iid ∈ sideEffectIds ∨
       (({ iid := .IrInstructionIdConst, ref_count := 0,
           asm_has_side_effects := false } : IrInstructionM).iid =
          IrInstructionId.IrInstructionIdAsm ∧
        ({ iid := .IrInstructionIdConst, ref_count := 0,
           asm_has_side_effects := false } : IrInstructionM).asm_has_side_effects = true)))) :=
  ⟨by decide, c6_dead_code_skip _ (by decide)⟩

/-- Dereference of a C ConstExprValue* base pointer: a slot base reads
the current mem slot contents, a value base is the value itself. -/
def resolvePtrBase (slots : List ConstExprValue) : PtrBase → Option ConstExprValue
  | .toSlot i => slots[i]?
  | .toValue v => some v

/-- Translation of const_ptr_pointee (ir.cpp 39-50): follow a constant
pointer to the addressed sub-value; the asserts (Static specialness,
index within the base array) and union misreads yield none. -/
def const_ptr_pointee (slots : List ConstExprValue) (const_val : ConstExprValue) :
    Option ConstExprValue :=
  if const_val.special ≠ ConstSpecial.static then none
  else
    match const_val.data with
    | .xPtr base index =>
      match resolvePtrBase slots base with
      | none => none
      | some base_ptr =>
        if index = SIZE_MAX then some base_ptr
        else
          match base_ptr.data with
          | .xArray elements => elements[index]?
          | _ => none
    | _ => none

/-- Reading const_val.data.x_bignum.data.x_uint: defined when the
payload is an integer bignum holding a non-negative value, a union or
sign misread yields none. -/
def bignumUintOf (v : ConstExprValue) : Option Nat :=
  match v.data with
  | .xBignum bn =>
    if bn.kind = BigNumKind.int ∧ 0 ≤ bn.intVal then some bn.intVal.toNat else none
  | _ => none

/-- A C pointer to the location const_ptr_pointee(pv) addresses: the
same base when pv addresses its base directly, otherwise a pointer to
the (immutable) element value. -/
def ptrToPointeeBase (slots : List ConstExprValue) (pv : ConstExprValue) :
    Option PtrBase :=
  match pv.data with
  | .xPtr base idx =>
    if idx = SIZE_MAX then some base
    else
      match resolvePtrBase slots base with
      | some basev =>
        match basev.data with
        | .xArray elements => (elements[idx]?).map PtrBase.toValue
        | _ => none
      | none => none
  | _ => none

/-- Translation of ir.cpp 4813-4870: the constant-fold attempt of
ir_analyze_instruction_elem_ptr once the element index is known
Static, and the fall-through runtime ElemPtr emission.  The result
triple is the analyzer state, the returned result type, and the
verified instruction linked to the old ElemPtr (ir_build_const_from
creates it without appending to the instruction stream); the outer
none models C undefined behavior (failed asserts, union misreads),
which the claims' hypotheses exclude. -/
def elemPtrFoldOrEmit (s : IraState) (array_ptr casted_elem_index : IrInst)
    (array_type return_type : ZigType) (index : Nat) (safety_check_on : Bool) :
    Option (IraState × ZigType × Option IrInst) :=
  if array_ptr.static_value.special ≠ ConstSpecial.runtime then
    match const_ptr_pointee s.mem_slots array_ptr.static_value with
    | none => none
    | some array_ptr_val =>
      if array_ptr_val.special ≠ ConstSpecial.runtime then
        let dep := array_ptr_val.dependsOnCompileVar ||
          casted_elem_index.static_value.dependsOnCompileVar
        match array_type with
        | .pointer _ _ =>
          match array_ptr_val.data with
          | .xPtr base offset =>
            if offset = SIZE_MAX then
              -- new_index = SIZE_MAX, mem_size = 1, old_size = 1
              if SIZE_MAX ≥ 1 then
                some (addError s (s!"index {index} outside pointer of size 1"),
                  ZigType.invalid, none)
              else
                some (s, return_type,
                  some ⟨.elemPtrInst, return_type, .mk .static dep (.xPtr base SIZE_MAX)⟩)
            else
              match resolvePtrBase s.mem_slots base with
              | none => none
              | some basev =>
                match basev.data with
                | .xArray elements =>
                  if offset + index ≥ elements.length then
                    some (addError s
                      (s!"index {index} outside pointer of size {elements.length - offset}"),
                      ZigType.invalid, none)
                  else
                    some (s, return_type,
                      some ⟨.elemPtrInst, return_type,
                        .mk .static dep (.xPtr base (offset + index))⟩)
                | _ => none
          | _ => none
        | .sliceT _ _ =>
          match array_ptr_val.data with
          | .xStruct fields =>
            match fields[0]?, fields[1]? with
            | some ptr_field, some len_field =>
              match bignumUintOf len_field, ptr_field.data with
              | some slice_len, .xPtr sbase soffset =>
                if index ≥ slice_len then
                  some (addError s
                    (s!"index {index} outside slice of size {slice_len}"),
                    ZigType.invalid, none)
                else if soffset = SIZE_MAX then
                  some (s, return_type,
                    some ⟨.elemPtrInst, return_type,
                      .mk .static dep (.xPtr sbase SIZE_MAX)⟩)
                else
                  match resolvePtrBase s.mem_slots sbase with
                  | some sbasev =>
                    match sbasev.data with
                    | .xArray selems =>
                      if soffset + index < selems.length then
                        some (s, return_type,
                          some ⟨.elemPtrInst, return_type,
                            .mk .static dep (.xPtr sbase (soffset + index))⟩)
                      else none
                    | _ => none
                  | none => none
              | _, _ => none
            | _, _ => none
          | _ => none
        | .array _ _ =>
          match ptrToPointeeBase s.mem_slots array_ptr.static_value with
          | some newbase =>
            some (s, return_type,
              some ⟨.elemPtrInst, return_type, .mk .static dep (.xPtr newbase index)⟩)
          | none => none
        | _ => none -- zig_unreachable
      else
        some ({ s with emitted := s.emitted ++ [.elemPtrEmit safety_check_on] },
          return_type, some ⟨.elemPtrInst, return_type, runtimeVal⟩)
  else
    some ({ s with emitted := s.emitted ++ [.elemPtrEmit safety_check_on] },
      return_type, some ⟨.elemPtrInst, return_type, runtimeVal⟩)

/-- Translation of ir.cpp 4794-4874: cast the element index to usize,
bound-check a Static index against an array operand, then fold or emit
(elemPtrFoldOrEmit above). -/
def elemPtrContinue (s : IraState) (array_ptr elem_index : IrInst)
    (array_type return_type : ZigType) :
    Option (IraState × ZigType × Option IrInst) :=
  match ir_get_casted_value s elem_index (some usizeT) with
  | (s1, none) => some (s1, ZigType.invalid, none)
  | (s1, some casted_elem_index) =>
    if casted_elem_index.static_value.special ≠ ConstSpecial.runtime then
      match bignumUintOf casted_elem_index.static_value with
      | none => none
      | some index =>
        match array_type with
        | .array _ array_len =>
          if index ≥ array_len then
            some (addError s1
              (s!"index {index} outside array of size {array_len}"),
              ZigType.invalid, none)
          else
            elemPtrFoldOrEmit s1 array_ptr casted_elem_index array_type
              return_type index false
        | _ =>
          elemPtrFoldOrEmit s1 array_ptr casted_elem_index array_type
            return_type index true
    else
      some ({ s1 with emitted := s1.emitted ++ [.elemPtrEmit true] },
        return_type, some ⟨.elemPtrInst, return_type, runtimeVal⟩)

/-- Translation of ir_analyze_instruction_elem_ptr (ir.cpp 4759-4875).
The operands are the analyzed instructions read through the other
cross-links.  The assert that the operand type is a pointer is the
outer none. -/
def ir_analyze_instruction_elem_ptr (s : IraState) (array_ptr elem_index : IrInst) :
    Option (IraState × ZigType × Option IrInst) :=
  if array_ptr.type_entry = ZigType.invalid then some (s, ZigType.invalid, none)
  else if elem_index.type_entry = ZigType.invalid then some (s, ZigType.invalid, none)
  else
    match array_ptr.type_entry with
    | .pointer array_type _ =>
      match array_type with
      | .invalid => some (s, ZigType.invalid, none)
      | .array child_type len =>
        let s1 := if len = 0 then addError s "index 0 outside array of size 0" else s
        elemPtrContinue s1 array_ptr elem_index array_type
          (ZigType.pointer child_type false)
      | .pointer _ _ =>
        elemPtrContinue s array_ptr elem_index array_type array_type
      | .sliceT child is_const =>
        elemPtrContinue s array_ptr elem_index array_type
          (ZigType.pointer child is_const)
      | _ =>
        some (addError s (s!"array access of non-array type {typeName array_type}"),
          ZigType.invalid, none)
    | _ => none

/-- C3: analyzing an ElemPtr with a compile-time-known usize index k:
when the operand is a pointer (to a pointer) whose Static pointee is
the constant pointer {base b, known offset o} with b a known array of
es elements, the result is the Static constant pointer {b, o + k} when
o + k is in bounds, and the out-of-bounds diagnostic plus the invalid
type otherwise; when the operand points to an array type of length n
with 0 < n and the index k is at least n, the analyzer reports "index
k outside array of size n" and yields invalid with no result value. -/
theorem c3_elem_ptr_const_fold :
    (∀ (s : IraState) (array_ptr elem_index : IrInst) (c : ZigType)
       (pc ac depa depi depv bd : Bool) (bspec : ConstSpecial)
       (pbase b : PtrBase) (k o : Nat) (es : List ConstExprValue),
       array_ptr.type_entry = ZigType.pointer (ZigType.pointer c pc) ac →
       elem_index.type_entry = usizeT →
       elem_index.static_value =
         .mk .static depi (.xBignum { kind := .int, intVal := (k : Int) }) →
       array_ptr.static_value = .mk .static depa (.xPtr pbase SIZE_MAX) →
       resolvePtrBase s.mem_slots pbase =
         some (.mk .static depv (.xPtr b o)) →
       o ≠ SIZE_MAX →
       resolvePtrBase s.mem_slots b = some (.mk bspec bd (.xArray es)) →
       o ≤ es.length →
       ((o + k < es.length →
         ir_analyze_instruction_elem_ptr s array_ptr elem_index =
           some (s, ZigType.pointer c pc,
             some ⟨.elemPtrInst, ZigType.pointer c pc,
               .mk .static (depv || depi) (.xPtr b (o + k))⟩)) ∧
        (o + k ≥ es.length →
         ir_analyze_instruction_elem_ptr s array_ptr elem_index =
           some (addError s
             (s!"index {k} outside pointer of size {es.length - o}"),
             ZigType.invalid, none)))) ∧
    (∀ (s : IraState) (array_ptr elem_index : IrInst) (c : ZigType)
       (ac depi : Bool) (n k : Nat),
       array_ptr.type_entry = ZigType.pointer (ZigType.array c n) ac →
       elem_index.type_entry = usizeT →
       elem_index.static_value =
         .mk .static depi (.xBignum { kind := .int, intVal := (k : Int) }) →
       0 < n → n ≤ k →
       ir_analyze_instruction_elem_ptr s array_ptr elem_index =
         some (addError s (s!"index {k} outside array of size {n}"),
           ZigType.invalid, none)) := by
  constructor
  · intro s array_ptr elem_index c pc ac depa depi depv bd bspec pbase b k o es
      htype hitype hival haval hpbase ho hb hole
    constructor
    · intro hin
      have hnotout : ¬ es.length ≤ o + k := by omega
      simp [ir_analyze_instruction_elem_ptr, htype, hitype,
        elemPtrContinue, ir_get_casted_value, hival, haval, usizeT,
        bignumUintOf, elemPtrFoldOrEmit, const_ptr_pointee,
        ConstExprValue.special, ConstExprValue.data,
        ConstExprValue.dependsOnCompileVar, hpbase, ho, hb, hnotout]
    · intro hout
      have hout2 : es.length ≤ o + k := hout
      simp [ir_analyze_instruction_elem_ptr, htype, hitype,
        elemPtrContinue, ir_get_casted_value, hival, haval, usizeT,
        bignumUintOf, elemPtrFoldOrEmit, const_ptr_pointee,
        ConstExprValue.special, ConstExprValue.data,
        ConstExprValue.dependsOnCompileVar, hpbase, ho, hb, hout2]
  · intro s array_ptr elem_index c ac depi n k htype hitype hival hn hnk
    have hnz : ¬ n = 0 := by omega
    have hge : n ≤ k := hnk
    simp [ir_analyze_instruction_elem_ptr, htype, hitype, hnz,
      elemPtrContinue, ir_get_casted_value, hival, usizeT,
      bignumUintOf, hge, ConstExprValue.special, ConstExprValue.data]

/-- Witness instantiating c3_elem_ptr_const_fold: part one on a
pointer value {base: 3-element array, offset 1} indexed by 1 (in
bounds), part two on the spec scenario a[5] with a of type [3]u8. -/
theorem c3_elem_ptr_const_fold_witness :
    ((1 + 1 < 3 →
      ir_analyze_instruction_elem_ptr
        { backward_branch_count := 0, backward_branch_quota := 1000,
          invalid := false, block_queue_index := 0,
          old_bb_queue := [⟨0, 1⟩], current_bb := ⟨0, 1⟩,
          const_predecessor_bb := none, instruction_index := 0,
          mem_slots := [], emitted := [], errors := [] }
        ⟨.otherInst,
         ZigType.pointer (ZigType.pointer (ZigType.int false 8) false) false,
         .mk .static false (.xPtr (.toValue (.mk .static false
           (.xPtr (.toValue (.mk .static false (.xArray
             [.mk .static false (.xBignum { kind := .int, intVal := 1 }),
              .mk .static false (.xBignum { kind := .int, intVal := 2 }),
              .mk .static false (.xBignum { kind := .int, intVal := 3 })])))
            1))) SIZE_MAX)⟩
        ⟨.otherInst, usizeT,
         .mk .static false (.xBignum { kind := .int, intVal := (1 : Int) })⟩ =
        some ({ backward_branch_count := 0, backward_branch_quota := 1000,
                invalid := false, block_queue_index := 0,
                old_bb_queue := [⟨0, 1⟩], current_bb := ⟨0, 1⟩,
                const_predecessor_bb := none, instruction_index := 0,
                mem_slots := [], emitted := [], errors := [] },
          ZigType.pointer (ZigType.int false 8) false,
          some ⟨.elemPtrInst, ZigType.pointer (ZigType.int false 8) false,
            .mk .static (false || false) (.xPtr (.toValue (.mk .static false (.xArray
              [.mk .static false (.xBignum { kind := .int, intVal := 1 }),
               .mk .static false (.xBignum { kind := .int, intVal := 2 }),
               .mk .static false (.xBignum { kind := .int, intVal := 3 })])))
              (1 + 1))⟩)) ∧
     (1 + 1 ≥ 3 →
      ir_analyze_instruction_elem_ptr
        { backward_branch_count := 0, backward_branch_quota := 1000,
          invalid := false, block_queue_index := 0,
          old_bb_queue := [⟨0, 1⟩], current_bb := ⟨0, 1⟩,
          const_predecessor_bb := none, instruction_index := 0,
          mem_slots := [], emitted := [], errors := [] }
        ⟨.otherInst,
         ZigType.pointer (ZigType.pointer (ZigType.int false 8) false) false,
         .mk .static false (.xPtr (.toValue (.mk .static false
           (.xPtr (.toValue (.mk .static false (.xArray
             [.mk .static false (.xBignum { kind := .int, intVal := 1 }),
              .mk .static false (.xBignum { kind := .int, intVal := 2 }),
              .mk .static false (.xBignum { kind := .int, intVal := 3 })])))
            1))) SIZE_MAX)⟩
        ⟨.otherInst, usizeT,
         .mk .static false (.xBignum { kind := .int, intVal := (1 : Int) })⟩ =
        some (addError
          { backward_branch_count := 0, backward_branch_quota := 1000,
            invalid := false, block_queue_index := 0,
            old_bb_queue := [⟨0, 1⟩], current_bb := ⟨0, 1⟩,
            const_predecessor_bb := none, instruction_index := 0,
            mem_slots := [], emitted := [], errors := [] }
          (s!"index {(1 : Nat)} outside pointer of size {(3 : Nat) - 1}"),
          ZigType.invalid, none))) ∧
    (ir_analyze_instruction_elem_ptr
      { backward_branch_count := 0, backward_branch_quota := 1000,
        invalid := false, block_queue_index := 0,
        old_bb_queue := [⟨0, 1⟩], current_bb := ⟨0, 1⟩,
        const_predecessor_bb := none, instruction_index := 0,
        mem_slots := [], emitted := [], errors := [] }
      ⟨.otherInst, ZigType.pointer (ZigType.array (ZigType.int false 8) 3) false,
       runtimeVal⟩
      ⟨.otherInst, usizeT,
       .mk .static false (.xBignum { kind := .int, intVal := (5 : Int) })⟩ =
      some (addError
        { backward_branch_count := 0, backward_branch_quota := 1000,
          invalid := false, block_queue_index := 0,
          old_bb_queue := [⟨0, 1⟩], current_bb := ⟨0, 1⟩,
          const_predecessor_bb := none, instruction_index := 0,
          mem_slots := [], emitted := [], errors := [] }
        (s!"index {(5 : Nat)} outside array of size {(3 : Nat)}"),
        ZigType.invalid, none)) := by
  constructor
  · exact c3_elem_ptr_const_fold.1 _ _ _ (ZigType.int false 8)
      false false false false false false ConstSpecial.static
      (.toValue (.mk .static false
        (.xPtr (.toValue (.mk .static false (.xArray
          [.mk .static false (.xBignum { kind := .int, intVal := 1 }),
           .mk .static false (.xBignum { kind := .int, intVal := 2 }),
           .mk .static false (.xBignum { kind := .int, intVal := 3 })])))
         1)))
      (.toValue (.mk .static false (.xArray
        [.mk .static false (.xBignum { kind := .int, intVal := 1 }),
         .mk .static false (.xBignum { kind := .int, intVal := 2 }),
         .mk .static false (.xBignum { kind := .int, intVal := 3 })])))
      1 1 _ rfl rfl rfl rfl rfl (by decide) rfl (by decide)
  · exact c3_elem_ptr_const_fold.2 _ _ _ (ZigType.int false 8)
      false false 3 5 rfl rfl rfl (by decide) (by decide)

/-- Model of a VariableTableEntry: declared type, user constness, mem
slot index (SIZE_MAX when the binding has no compile-time slot),
whether its scope is inside a function, and for top-level consts the
resolved declaration value (decl_node value static_value). -/
structure VariableM where
  var_type : ZigType
  src_is_const : Bool
  mem_slot_index : Nat
  in_fn_scope : Bool
  top_level_value : ConstExprValue

/-- Translation of ir_analyze_var_ptr (ir.cpp 4729-4752) together
with ir_analyze_const_ptr (3146-3155): a variable whose mem slot (or
top-level const value) is known yields a Static constant pointer to
that storage with a const pointer type; otherwise a runtime VarPtr is
emitted with a mutable pointer type.  none models the out-of-bounds
slot access and the assert on a runtime top-level const. -/
def ir_analyze_var_ptr (s : IraState) (var : VariableM) :
    Option (IraState × ZigType × Option IrInst) :=
  if var.var_type = ZigType.invalid then some (s, var.var_type, none)
  else
    let slotInfo : Option (Option (PtrBase × ConstExprValue)) :=
      if var.in_fn_scope then
        if var.mem_slot_index ≠ SIZE_MAX then
          match s.mem_slots[var.mem_slot_index]? with
          | none => none
          | some ms => some (some (.toSlot var.mem_slot_index, ms))
        else some none
      else if var.src_is_const then
        if var.top_level_value.special = ConstSpecial.runtime then none
        else some (some (.toValue var.top_level_value, var.top_level_value))
      else some none
    match slotInfo with
    | none => none
    | some (some (base, mem_slot)) =>
      if mem_slot.special ≠ ConstSpecial.runtime then
        some (s, ZigType.pointer var.var_type true,
          some ⟨.varPtrInst var.mem_slot_index, ZigType.pointer var.var_type true,
            .mk .static mem_slot.dependsOnCompileVar (.xPtr base SIZE_MAX)⟩)
      else
        some ({ s with emitted := s.emitted ++ [.varPtrEmit var.mem_slot_index] },
          ZigType.pointer var.var_type false,
          some ⟨.varPtrInst var.mem_slot_index,
            ZigType.pointer var.var_type false, runtimeVal⟩)
    | some none =>
      some ({ s with emitted := s.emitted ++ [.varPtrEmit var.mem_slot_index] },
        ZigType.pointer var.var_type false,
        some ⟨.varPtrInst var.mem_slot_index,
          ZigType.pointer var.var_type false, runtimeVal⟩)

/-- Model of an IrInstructionDeclVar: the variable, the optional
explicit type instruction and the initializer (read through other). -/
structure IrInstDeclVar where
  var : VariableM
  var_type : Option IrInst
  init_value : IrInst

/-- Translation of ir_analyze_instruction_decl_var (ir.cpp 4011-4105)
for declarations without an explicit type annotation and not
export/extern (the forms the claims exercise; the explicit-type path
resolves a type value and is not modelled - none).  The type-category
switch and the unconditional write of the casted initializer into the
variable mem slot (4092-4096) are translated; assigning var->type and
appending to the function variable list are not observed by the
claims. -/
def ir_analyze_instruction_decl_var (s : IraState) (dv : IrInstDeclVar) :
    Option (IraState × ZigType) :=
  if dv.init_value.type_entry = ZigType.invalid then some (s, ZigType.invalid)
  else
    match dv.var_type with
    | some _ => none
    | none =>
      match ir_get_casted_value s dv.init_value none with
      | (_, none) => none
      | (s1, some casted_init_value) =>
        -- get_underlying_type is the identity on this universe
        let result_type := casted_init_value.type_entry
        let checked : IraState × ZigType :=
          match result_type with
          | .numLitInt =>
            if casted_init_value.static_value.special = ConstSpecial.runtime then
              (addError s1 "unable to infer variable type", ZigType.invalid)
            else (s1, result_type)
          | .numLitFloat =>
            if casted_init_value.static_value.special = ConstSpecial.runtime then
              (addError s1 "unable to infer variable type", ZigType.invalid)
            else (s1, result_type)
          | .unreachableT =>
            (addError s1 (s!"variable of type {typeName result_type} not allowed"),
             ZigType.invalid)
          | .nullLit =>
            (addError s1 (s!"variable of type {typeName result_type} not allowed"),
             ZigType.invalid)
          | .metaType =>
            if casted_init_value.static_value.special = ConstSpecial.runtime then
              (addError s1 (s!"variable of type {typeName result_type} must be constant"),
               ZigType.invalid)
            else (s1, result_type)
          | t => (s1, t)
        let s2 := checked.1
        if dv.var.mem_slot_index ≠ SIZE_MAX then
          if dv.var.mem_slot_index < s2.mem_slots.length then
            some ({ s2 with
              mem_slots := (s2.mem_slots.set dv.var.mem_slot_index
                casted_init_value.static_value),
              emitted := s2.emitted ++ [.varDeclEmit] }, ZigType.void)
          else none
        else
          some ({ s2 with emitted := s2.emitted ++ [.varDeclEmit] }, ZigType.void)

/-- The store *dest_val = casted through a Static constant pointer
(ir.cpp 5122): writing through a slot base updates the slot (the whole
slot for the SIZE_MAX index, the addressed array element otherwise);
mutation of non-slot storage is outside the model. -/
def writeThroughPtr (slots : List ConstExprValue) (ptrVal newVal : ConstExprValue) :
    Option (List ConstExprValue) :=
  match ptrVal.data with
  | .xPtr (.toSlot j) index =>
    match slots[j]? with
    | none => none
    | some oldSlot =>
      if index = SIZE_MAX then some (slots.set j newVal)
      else
        match oldSlot.data with
        | .xArray elements =>
          if index < elements.length then
            some (slots.set j
              (.mk oldSlot.special oldSlot.dependsOnCompileVar
                (.xArray (elements.set index newVal))))
          else none
        | _ => none
  | _ => none

/-- Translation of ir_analyze_instruction_store_ptr (ir.cpp
5103-5154).  The result also carries the (possibly mutated) ptr
instruction, since the demotion path writes Runtime into the pointer
instruction's static value; ir_analyze_void folds to an unemitted
const.  none models the TODO panics (FieldPtr/ElemPtr demotion), the
zig_unreachable default, and union misreads. -/
def ir_analyze_instruction_store_ptr (s : IraState) (ptr value : IrInst) :
    Option (IraState × IrInst × ZigType) :=
  if ptr.type_entry = ZigType.invalid then some (s, ptr, ptr.type_entry)
  else if value.type_entry = ZigType.invalid then some (s, ptr, value.type_entry)
  else
    match ptr.type_entry with
    | .pointer child_type _ =>
      match ir_get_casted_value s value (some child_type) with
      | (s1, none) => some (s1, ptr, ZigType.invalid)
      | (s1, some casted_value) =>
        match
          (if ptr.static_value.special ≠ ConstSpecial.runtime ∧
              casted_value.static_value.special ≠ ConstSpecial.runtime then
            match const_ptr_pointee s1.mem_slots ptr.static_value with
            | none => some none       -- C dereferences; assert failure
            | some dest_val =>
              if dest_val.special ≠ ConstSpecial.runtime then
                match writeThroughPtr s1.mem_slots ptr.static_value
                    casted_value.static_value with
                | none => some none
                | some slots2 =>
                  some (some ({ s1 with mem_slots := slots2 }, ptr, ZigType.void))
              else none
          else none : Option (Option (IraState × IrInst × ZigType))) with
        | some none => none
        | some (some r) => some r
        | none =>
          if ptr.static_value.special ≠ ConstSpecial.runtime then
            match ptr.id with
            | .varPtrInst idx =>
              if idx ≠ SIZE_MAX then
                match s1.mem_slots[idx]? with
                | none => none
                | some oldSlot =>
                  let slots2 := s1.mem_slots.set idx
                    (.mk .runtime oldSlot.dependsOnCompileVar oldSlot.data)
                  let ptr2 : IrInst := { ptr with static_value :=
                    (ConstExprValue.mk ConstSpecial.runtime
                      ptr.static_value.dependsOnCompileVar
                      ptr.static_value.data) }
                  some ({ s1 with
                      mem_slots := slots2,
                      emitted := s1.emitted ++ [.varPtrEmit idx, .storePtrEmit] },
                    ptr2, ZigType.void)
              else none
            | _ => none
          else
            some ({ s1 with emitted := s1.emitted ++ [.storePtrEmit] },
              ptr, ZigType.void)
    | _ => none

/-- Helper: ir_resolve_cast does not touch the mem slots. -/
theorem ir_resolve_cast_mem_slots (s : IraState) (v : IrInst) (w : ZigType) :
    (ir_resolve_cast s v w).1.mem_slots = s.mem_slots := by
  unfold ir_resolve_cast; split <;> rfl

/-- Helper: ir_analyze_cast does not touch the mem slots. -/
theorem ir_analyze_cast_mem_slots (s : IraState) (w : ZigType) (v : IrInst) :
    (ir_analyze_cast s w v).1.mem_slots = s.mem_slots := by
  unfold ir_analyze_cast
  dsimp only
  split
  · rfl
  · split
    · exact ir_resolve_cast_mem_slots _ _ _
    · split
      · exact ir_resolve_cast_mem_slots _ _ _
      · rfl

/-- Helper: ir_get_casted_value does not touch the mem slots. -/
theorem ir_get_casted_value_mem_slots (s : IraState) (v : IrInst)
    (e : Option ZigType) :
    (ir_get_casted_value s v e).1.mem_slots = s.mem_slots := by
  unfold ir_get_casted_value
  cases e with
  | none => rfl
  | some expected =>
    dsimp only
    split
    · rfl
    · split
      · rfl
      · split
        · rfl
        · exact ir_analyze_cast_mem_slots _ _ _
        · rfl

/-- Helper: a successful writeThroughPtr whose destination value was
not Runtime preserves the Runtime specialness of every slot that had
it. -/
theorem writeThroughPtr_preserves_runtime (slots : List ConstExprValue)
    (pv nv : ConstExprValue) (slots2 : List ConstExprValue) (i : Nat)
    (r dv : ConstExprValue)
    (hw : writeThroughPtr slots pv nv = some slots2)
    (hp : const_ptr_pointee slots pv = some dv)
    (hdv : dv.special ≠ ConstSpecial.runtime)
    (hi : slots[i]? = some r) (hr : r.special = ConstSpecial.runtime) :
    (slots2[i]?).map ConstExprValue.special = some ConstSpecial.runtime := by
  unfold writeThroughPtr at hw
  split at hw
  case h_2 => cases hw
  case h_1 j index heq =>
    rcases hj : slots[j]? with _ | oldSlot <;> rw [hj] at hw <;>
      dsimp only at hw
    · cases hw
    · by_cases hidx : index = SIZE_MAX
      · rw [if_pos hidx] at hw
        cases hw
        by_cases hij : j = i
        · subst hij
          unfold const_ptr_pointee at hp
          rw [heq] at hp
          split at hp
          · cases hp
          · simp only [resolvePtrBase, hj, if_pos hidx] at hp
            cases hp
            rw [hj] at hi
            cases hi
            exact absurd hr hdv
        · rw [List.getElem?_set_ne hij, hi]
          simp [hr]
      · rw [if_neg hidx] at hw
        rcases hod : oldSlot.data with _ | b | b | ⟨pb, pn⟩ | elements | f | t <;>
          rw [hod] at hw <;> dsimp only at hw <;> try cases hw
        by_cases hlen : index < elements.length
        · rw [if_pos hlen] at hw
          cases hw
          by_cases hij : j = i
          · subst hij
            rw [hj] at hi
            cases hi
            have hlt : j < slots.length := (List.getElem?_eq_some_iff.mp hj).1
            rw [List.getElem?_set_self hlt]
            simpa [ConstExprValue.special] using hr
          · rw [List.getElem?_set_ne hij, hi]
            simp [hr]
        · rw [if_neg hlen] at hw
          cases hw

/-- Field reduction for the specialness accessor. -/
@[simp] theorem ConstExprValue.special_mk (a : ConstSpecial) (b : Bool)
    (c : ConstData) : (ConstExprValue.mk a b c).special = a := rfl

/-- Field reduction for the compile-var flag accessor. -/
@[simp] theorem ConstExprValue.dependsOnCompileVar_mk (a : ConstSpecial)
    (b : Bool) (c : ConstData) :
    (ConstExprValue.mk a b c).dependsOnCompileVar = b := rfl

/-- Field reduction for the payload accessor. -/
@[simp] theorem ConstExprValue.data_mk (a : ConstSpecial) (b : Bool)
    (c : ConstData) : (ConstExprValue.mk a b c).data = c := rfl

/-- Helper: the first store of a Runtime value through a Static
variable pointer to a Static mem slot takes the demotion path: the
slot becomes Runtime keeping its payload, the deferred VarPtr and
StorePtr are emitted, the pointer instruction itself turns Runtime. -/
theorem store_ptr_demotes (s : IraState) (ptr value : IrInst)
    (i : Nat) (child : ZigType) (pcst dep sdep : Bool) (sdata : ConstData)
    (hid : ptr.id = .varPtrInst i)
    (htype : ptr.type_entry = ZigType.pointer child pcst)
    (hvt : value.type_entry = child)
    (hchild : child ≠ ZigType.invalid)
    (hpv : ptr.static_value = .mk .static dep (.xPtr (.toSlot i) SIZE_MAX))
    (hrv : value.static_value.special = ConstSpecial.runtime)
    (hiS : i ≠ SIZE_MAX)
    (hslot : s.mem_slots[i]? = some (.mk .static sdep sdata)) :
    ir_analyze_instruction_store_ptr s ptr value =
      some ({ s with
          mem_slots := s.mem_slots.set i (.mk .runtime sdep sdata),
          emitted := s.emitted ++ [.varPtrEmit i, .storePtrEmit] },
        { ptr with static_value :=
            (ConstExprValue.mk ConstSpecial.runtime dep
              (.xPtr (.toSlot i) SIZE_MAX)) },
        ZigType.void) := by
  have hcast : ir_get_casted_value s value (some child) = (s, some value) := by
    unfold ir_get_casted_value
    rw [hvt]
    simp
  simp [ir_analyze_instruction_store_ptr, htype, hvt, hchild, hcast, hpv,
    hrv, hid, hiS, hslot]

/-- Helper: analyzing a StorePtr never makes a Runtime mem slot
Static again. -/
theorem store_ptr_preserves_runtime_slot (s : IraState) (ptr value : IrInst)
    (i : Nat) (r : ConstExprValue)
    (hi : s.mem_slots[i]? = some r) (hr : r.special = ConstSpecial.runtime) :
    ∀ out, ir_analyze_instruction_store_ptr s ptr value = some out →
      (out.1.mem_slots[i]?).map ConstExprValue.special =
        some ConstSpecial.runtime := by
  intro out hout
  unfold ir_analyze_instruction_store_ptr at hout
  split at hout
  · cases hout; rw [hi]; simpa using hr
  · split at hout
    · cases hout; rw [hi]; simpa using hr
    · split at hout
      case h_2 => cases hout
      case h_1 child_type cst heq2 =>
        split at hout
        case h_1 s1 heqc =>
          have hms : s1.mem_slots = s.mem_slots := by
            have h := ir_get_casted_value_mem_slots s value (some child_type)
            rw [heqc] at h
            exact h
          cases hout
          rw [hms, hi]; simpa using hr
        case h_2 s1 casted heqc =>
          have hms : s1.mem_slots = s.mem_slots := by
            have h := ir_get_casted_value_mem_slots s value (some child_type)
            rw [heqc] at h
            exact h
          split at hout
          · cases hout
          · rename_i r2 heq3
            cases hout
            split at heq3
            · split at heq3
              · simp at heq3
              · rename_i dest_val hdestv
                split at heq3
                · rename_i hdvs
                  split at heq3
                  · simp at heq3
                  · rename_i slots2 hwr
                    cases heq3
                    exact writeThroughPtr_preserves_runtime s1.mem_slots
                      ptr.static_value casted.static_value slots2 i r dest_val
                      hwr hdestv hdvs (by rw [hms]; exact hi) hr
                · cases heq3
            · cases heq3
          · rename_i heq3
            split at hout
            · split at hout
              case h_2 => cases hout
              case h_1 idx hptrid =>
                split at hout
                · split at hout
                  case h_1 holdnone => cases hout
                  case h_2 oldSlot holdslot =>
                    cases hout
                    by_cases hij : idx = i
                    · subst hij
                      have hlt : idx < s1.mem_slots.length :=
                        (List.getElem?_eq_some_iff.mp holdslot).1
                      simp [List.getElem?_set_self hlt]
                    · simp [List.getElem?_set_ne hij, hms, hi, hr]
                · cases hout
            · cases hout
              rw [hms, hi]; simpa using hr

/-- Helper: analyzing a VarPtr never changes any mem slot. -/
theorem var_ptr_preserves_mem_slots (s : IraState) (var : VariableM) :
    ∀ out, ir_analyze_var_ptr s var = some out →
      out.1.mem_slots = s.mem_slots := by
  intro out h
  unfold ir_analyze_var_ptr at h
  split at h
  · cases h; rfl
  · dsimp only at h
    split at h
    · cases h
    · split at h
      · cases h; rfl
      · cases h; rfl
    · cases h; rfl

/-- Example data for the C4 counterexample: a u8 variable with mem
slot 0, declared with Static initializer 1 inside a function. -/
def c4u8 : ZigType := ZigType.int false 8

/-- The Static initializer value 1. -/
def c4one : ConstExprValue :=
  .mk .static false (.xBignum { kind := .int, intVal := 1 })

/-- The example variable occupying mem slot 0. -/
def c4var : VariableM :=
  { var_type := c4u8, src_is_const := false, mem_slot_index := 0,
    in_fn_scope := true, top_level_value := runtimeVal }

/-- The example DeclVar instruction (no explicit type, initializer 1). -/
def c4dv : IrInstDeclVar :=
  { var := c4var, var_type := none,
    init_value := ⟨.otherInst, c4u8, c4one⟩ }

/-- A Runtime u8 value to store. -/
def c4rt : IrInst := ⟨.otherInst, c4u8, runtimeVal⟩

/-- The initial analyzer state for the C4 counterexample. -/
def c4s0 : IraState :=
  { backward_branch_count := 0, backward_branch_quota := 1000,
    invalid := false, block_queue_index := 0, old_bb_queue := [⟨0, 1⟩],
    current_bb := ⟨0, 1⟩, const_predecessor_bb := none,
    instruction_index := 0, mem_slots := [.mk .undef false .noPayload],
    emitted := [], errors := [] }

/-- C4 counterexample: analyze DeclVar (slot becomes Static 1), then
the VarPtr (a Static const pointer to the slot), then a StorePtr of a
Runtime value (the slot is demoted to Runtime), and then the same
DeclVar again, as happens when its block is inlined a second time
inside a comptime loop: the final state has the slot Static again,
refuting "after that demotion no later analyzed instruction in the
same analysis sets the slot's value back to Static". -/
theorem c4_slot_counterexample :
    (match ir_analyze_instruction_decl_var c4s0 c4dv with
     | some (s1, _) =>
       (match ir_analyze_var_ptr s1 c4var with
        | some (_, _, some ptrInst) =>
          (match ir_analyze_instruction_store_ptr s1 ptrInst c4rt with
           | some (s3, _, _) =>
             (s3.mem_slots[0]?).map ConstExprValue.special =
               some ConstSpecial.runtime ∧
             (match ir_analyze_instruction_decl_var s3 c4dv with
              | some (s4, _) =>
                (s4.mem_slots[0]?).map ConstExprValue.special =
                  some ConstSpecial.static
              | none => False)
           | none => False)
        | _ => False)
     | none => False) :=
  ⟨rfl, rfl⟩

/-- C4 amended: the first store of a non-Static value through a Static
variable pointer to a previously-Static mem slot demotes the slot to
Runtime and at that moment emits the deferred VarPtr and StorePtr into
the verified executable; thereafter no StorePtr or VarPtr analysis in
the same run sets the slot's specialness back to Static - only a
re-analysis of the variable's DeclVar (a block inlined again) can
write a Static value into the slot, as the counterexample shows. -/
theorem c4_slot_demotion_amended :
    (∀ (s : IraState) (ptr value : IrInst) (i : Nat) (child : ZigType)
       (pcst dep sdep : Bool) (sdata : ConstData),
       ptr.id = .varPtrInst i →
       ptr.type_entry = ZigType.pointer child pcst →
       value.type_entry = child →
       child ≠ ZigType.invalid →
       ptr.static_value = .mk .static dep (.xPtr (.toSlot i) SIZE_MAX) →
       value.static_value.special = ConstSpecial.runtime →
       i ≠ SIZE_MAX →
       s.mem_slots[i]? = some (.mk .static sdep sdata) →
       ir_analyze_instruction_store_ptr s ptr value =
         some ({ s with
             mem_slots := s.mem_slots.set i (.mk .runtime sdep sdata),
             emitted := s.emitted ++ [.varPtrEmit i, .storePtrEmit] },
           { ptr with static_value :=
               (ConstExprValue.mk ConstSpecial.runtime dep
                 (.xPtr (.toSlot i) SIZE_MAX)) },
           ZigType.void)) ∧
    (∀ (s : IraState) (ptr value : IrInst) (i : Nat) (r : ConstExprValue),
       s.mem_slots[i]? = some r → r.special = ConstSpecial.runtime →
       ∀ out, ir_analyze_instruction_store_ptr s ptr value = some out →
         (out.1.mem_slots[i]?).map ConstExprValue.special =
           some ConstSpecial.runtime) ∧
    (∀ (s : IraState) (var : VariableM) (out : IraState × ZigType × Option IrInst),
       ir_analyze_var_ptr s var = some out → out.1.mem_slots = s.mem_slots) := by
  refine ⟨?_, ?_, ?_⟩
  · intro s ptr value i child pcst dep sdep sdata h1 h2 h3 h4 h5 h6 h7 h8
    exact store_ptr_demotes s ptr value i child pcst dep sdep sdata
      h1 h2 h3 h4 h5 h6 h7 h8
  · intro s ptr value i r h1 h2
    exact store_ptr_preserves_runtime_slot s ptr value i r h1 h2
  · intro s var out h
    exact var_ptr_preserves_mem_slots s var out h

/-- Witness instantiating c4_slot_demotion_amended: the demotion at
the counterexample state after the DeclVar (slot 0 Static 1), the
Runtime preservation on a store through a Runtime pointer, and the
VarPtr slot preservation on the demoted state. -/
theorem c4_slot_demotion_amended_witness :
    (ir_analyze_instruction_store_ptr
      { backward_branch_count := 0, backward_branch_quota := 1000,
        invalid := false, block_queue_index := 0, old_bb_queue := [⟨0, 1⟩],
        current_bb := ⟨0, 1⟩, const_predecessor_bb := none,
        instruction_index := 0, mem_slots := [c4one],
        emitted := [.varDeclEmit], errors := [] }
      ⟨.varPtrInst 0, ZigType.pointer c4u8 true,
       .mk .static false (.xPtr (.toSlot 0) SIZE_MAX)⟩ c4rt =
      some ({ backward_branch_count := 0, backward_branch_quota := 1000,
              invalid := false, block_queue_index := 0, old_bb_queue := [⟨0, 1⟩],
              current_bb := ⟨0, 1⟩, const_predecessor_bb := none,
              instruction_index := 0,
              mem_slots := ([c4one].set 0
                (.mk .runtime false (.xBignum { kind := .int, intVal := 1 }))),
              emitted := [.varDeclEmit] ++ [.varPtrEmit 0, .storePtrEmit],
              errors := [] },
        ⟨.varPtrInst 0, ZigType.pointer c4u8 true,
         .mk .runtime false (.xPtr (.toSlot 0) SIZE_MAX)⟩,
        ZigType.void)) ∧
    ((match ir_analyze_instruction_store_ptr
        { backward_branch_count := 0, backward_branch_quota := 1000,
          invalid := false, block_queue_index := 0, old_bb_queue := [⟨0, 1⟩],
          current_bb := ⟨0, 1⟩, const_predecessor_bb := none,
          instruction_index := 0,
          mem_slots := [.mk .runtime false (.xBignum { kind := .int, intVal := 1 })],
          emitted := [], errors := [] }
        ⟨.varPtrInst 0, ZigType.pointer c4u8 true, runtimeVal⟩ c4rt with
      | some out => (out.1.mem_slots[0]?).map ConstExprValue.special =
          some ConstSpecial.runtime
      | none => True)) ∧
    ((match ir_analyze_var_ptr
        { backward_branch_count := 0, backward_branch_quota := 1000,
          invalid := false, block_queue_index := 0, old_bb_queue := [⟨0, 1⟩],
          current_bb := ⟨0, 1⟩, const_predecessor_bb := none,
          instruction_index := 0,
          mem_slots := [.mk .runtime false (.xBignum { kind := .int, intVal := 1 })],
          emitted := [], errors := [] } c4var with
      | some out => out.1.mem_slots =
          [ConstExprValue.mk .runtime false (.xBignum { kind := .int, intVal := 1 })]
      | none => True)) := by
  refine ⟨?_, ?_, ?_⟩
  · exact c4_slot_demotion_amended.1
      { backward_branch_count := 0, backward_branch_quota := 1000,
        invalid := false, block_queue_index := 0, old_bb_queue := [⟨0, 1⟩],
        current_bb := ⟨0, 1⟩, const_predecessor_bb := none,
        instruction_index := 0, mem_slots := [c4one],
        emitted := [.varDeclEmit], errors := [] }
      ⟨.varPtrInst 0, ZigType.pointer c4u8 true,
       .mk .static false (.xPtr (.toSlot 0) SIZE_MAX)⟩ c4rt 0 c4u8
      true false false (.xBignum { kind := .int, intVal := 1 })
      rfl rfl rfl (by decide) rfl rfl (by decide) rfl
  · match hout : ir_analyze_instruction_store_ptr
        { backward_branch_count := 0, backward_branch_quota := 1000,
          invalid := false, block_queue_index := 0, old_bb_queue := [⟨0, 1⟩],
          current_bb := ⟨0, 1⟩, const_predecessor_bb := none,
          instruction_index := 0,
          mem_slots := [.mk .runtime false (.xBignum { kind := .int, intVal := 1 })],
          emitted := [], errors := [] }
        ⟨.varPtrInst 0, ZigType.pointer c4u8 true, runtimeVal⟩ c4rt with
    | none => trivial
    | some out =>
      exact c4_slot_demotion_amended.2.1
        { backward_branch_count := 0, backward_branch_quota := 1000,
          invalid := false, block_queue_index := 0, old_bb_queue := [⟨0, 1⟩],
          current_bb := ⟨0, 1⟩, const_predecessor_bb := none,
          instruction_index := 0,
          mem_slots := [.mk .runtime false (.xBignum { kind := .int, intVal := 1 })],
          emitted := [], errors := [] }
        ⟨.varPtrInst 0, ZigType.pointer c4u8 true, runtimeVal⟩ c4rt 0
        (.mk .runtime false (.xBignum { kind := .int, intVal := 1 }))
        rfl rfl out hout
  · match hout : ir_analyze_var_ptr
        { backward_branch_count := 0, backward_branch_quota := 1000,
          invalid := false, block_queue_index := 0, old_bb_queue := [⟨0, 1⟩],
          current_bb := ⟨0, 1⟩, const_predecessor_bb := none,
          instruction_index := 0,
          mem_slots := [.mk .runtime false (.xBignum { kind := .int, intVal := 1 })],
          emitted := [], errors := [] } c4var with
    | none => trivial
    | some out =>
      exact c4_slot_demotion_amended.2.2
        { backward_branch_count := 0, backward_branch_quota := 1000,
          invalid := false, block_queue_index := 0, old_bb_queue := [⟨0, 1⟩],
          current_bb := ⟨0, 1⟩, const_predecessor_bb := none,
          instruction_index := 0,
          mem_slots := [.mk .runtime false (.xBignum { kind := .int, intVal := 1 })],
          emitted := [], errors := [] } c4var out hout

/-- Condition helper of ir_determine_peer_types: both types are sized
integers of the same signedness (ir.cpp 2861-2863). -/
def peerBothIntSameSign : ZigType → ZigType → Bool
  | .int ps _, .int cs _ => ps == cs
  | _, _ => false

/-- Condition helper: the current integer type is strictly wider
(ir.cpp 2865). -/
def peerCurIntWider : ZigType → ZigType → Bool
  | .int _ pb, .int _ cb => decide (pb < cb)
  | _, _ => false

/-- Condition helper: both types are floats (ir.cpp 2869-2870). -/
def peerBothFloat : ZigType → ZigType → Bool
  | .float _, .float _ => true
  | _, _ => false

/-- Condition helper: the current float type is strictly wider
(ir.cpp 2872). -/
def peerCurFloatWider : ZigType → ZigType → Bool
  | .float pb, .float cb => decide (pb < cb)
  | _, _ => false

/-- Condition helper: the first type is an error union whose child
matches the second type modulo const (ir.cpp 2875-2876 and 2879-2880). -/
def peerErrorUnionAbsorbs (a b : ZigType) : Bool :=
  match a with
  | .errorUnion child => types_match_const_cast_only child b
  | _ => false

/-- Condition helper: a literal numeric type (ir.cpp 2884-2885). -/
def peerIsNumLit : ZigType → Bool
  | .numLitInt => true
  | .numLitFloat => true
  | _ => false

/-- Translation of the loop of ir_determine_peer_types (ir.cpp
2846-2909), prev_inst threaded as the first argument.  The
"incompatible types" diagnostic and the literal-fit diagnostics only
accompany the invalid result and are not tracked here; the function
returns the resolved type exactly as the C function does. -/
def ir_determine_peer_types_go (prev_inst : IrInst) :
    List IrInst → ZigType
  | [] => prev_inst.type_entry
  | cur_inst :: rest =>
    if cur_inst.type_entry = ZigType.invalid then cur_inst.type_entry
    else if types_match_const_cast_only prev_inst.type_entry cur_inst.type_entry then
      ir_determine_peer_types_go prev_inst rest
    else if types_match_const_cast_only cur_inst.type_entry prev_inst.type_entry then
      ir_determine_peer_types_go cur_inst rest
    else if prev_inst.type_entry = ZigType.unreachableT then
      ir_determine_peer_types_go cur_inst rest
    else if cur_inst.type_entry = ZigType.unreachableT then
      ir_determine_peer_types_go prev_inst rest
    else if peerBothIntSameSign prev_inst.type_entry cur_inst.type_entry then
      (if peerCurIntWider prev_inst.type_entry cur_inst.type_entry then
        ir_determine_peer_types_go cur_inst rest
       else ir_determine_peer_types_go prev_inst rest)
    else if peerBothFloat prev_inst.type_entry cur_inst.type_entry then
      (if peerCurFloatWider prev_inst.type_entry cur_inst.type_entry then
        ir_determine_peer_types_go cur_inst rest
       else ir_determine_peer_types_go prev_inst rest)
    else if peerErrorUnionAbsorbs prev_inst.type_entry cur_inst.type_entry then
      ir_determine_peer_types_go prev_inst rest
    else if peerErrorUnionAbsorbs cur_inst.type_entry prev_inst.type_entry then
      ir_determine_peer_types_go cur_inst rest
    else if peerIsNumLit prev_inst.type_entry then
      (if ir_num_lit_fits_in_other_type prev_inst cur_inst.type_entry then
        ir_determine_peer_types_go cur_inst rest
       else ZigType.invalid)
    else if peerIsNumLit cur_inst.type_entry then
      (if ir_num_lit_fits_in_other_type cur_inst prev_inst.type_entry then
        ir_determine_peer_types_go prev_inst rest
       else ZigType.invalid)
    else ZigType.invalid

/-- Translation of ir_determine_peer_types (ir.cpp 2838-2910): the
first instruction seeds prev_inst (the C function asserts a non-empty
list; the empty list maps to invalid here). -/
def ir_determine_peer_types (instructions : List IrInst) : ZigType :=
  match instructions with
  | [] => ZigType.invalid
  | prev_inst :: rest =>
    if prev_inst.type_entry = ZigType.invalid then ZigType.invalid
    else ir_determine_peer_types_go prev_inst rest

/-- Translation of ir_resolve_peer_types (ir.cpp 3009-3013). -/
def ir_resolve_peer_types (instructions : List IrInst) : ZigType :=
  ir_determine_peer_types instructions

/-- C7 counterexample: the lists [u8, u16, %u16] and [u8, %u16, u16]
(with %T the error union over T) are permutations of each other with
no literal-numeric member, yet the first resolves to %u16 and the
second to the invalid type (incompatible u8 vs %u16 is hit before the
u16 that would have bridged them). -/
theorem c7_peer_types_counterexample :
    List.Perm
      [(⟨.otherInst, ZigType.int false 8, runtimeVal⟩ : IrInst),
       ⟨.otherInst, ZigType.int false 16, runtimeVal⟩,
       ⟨.otherInst, ZigType.errorUnion (ZigType.int false 16), runtimeVal⟩]
      [⟨.otherInst, ZigType.int false 8, runtimeVal⟩,
       ⟨.otherInst, ZigType.errorUnion (ZigType.int false 16), runtimeVal⟩,
       ⟨.otherInst, ZigType.int false 16, runtimeVal⟩] ∧
    (([ZigType.int false 8, ZigType.int false 16,
       ZigType.errorUnion (ZigType.int false 16)].all
        (fun t => !(peerIsNumLit t))) = true) ∧
    ir_resolve_peer_types
      [⟨.otherInst, ZigType.int false 8, runtimeVal⟩,
       ⟨.otherInst, ZigType.int false 16, runtimeVal⟩,
       ⟨.otherInst, ZigType.errorUnion (ZigType.int false 16), runtimeVal⟩] =
      ZigType.errorUnion (ZigType.int false 16) ∧
    ir_resolve_peer_types
      [⟨.otherInst, ZigType.int false 8, runtimeVal⟩,
       ⟨.otherInst, ZigType.errorUnion (ZigType.int false 16), runtimeVal⟩,
       ⟨.otherInst, ZigType.int false 16, runtimeVal⟩] =
      ZigType.invalid :=
  ⟨List.Perm.cons _ (List.Perm.swap _ _ _), rfl, rfl, rfl⟩

/-- Abstraction of a type for the amended peer resolution argument:
the running "best" type of the loop, with pointer constness erased,
behaves like an element of this small join structure. -/
inductive PeerRep where
  | inv : PeerRep
  | unr : PeerRep
  | intR : Bool → Nat → PeerRep
  | flR : Nat → PeerRep
  | atomR : ZigType → PeerRep
deriving DecidableEq, Repr

/-- The abstraction map (on const-erased types). -/
def toRep (t : ZigType) : PeerRep :=
  match canonType t with
  | .invalid => .inv
  | .unreachableT => .unr
  | .int s b => .intR s b
  | .float b => .flR b
  | u => .atomR u

/-- The join the peer loop computes on abstractions: invalid is
absorbing, unreachable is the identity, same-signedness integers and
floats join to the wider, anything else joins only with itself. -/
def repJoin : PeerRep → PeerRep → PeerRep
  | .inv, _ => .inv
  | _, .inv => .inv
  | .unr, y => y
  | x, .unr => x
  | .intR s1 b1, .intR s2 b2 =>
    if s1 = s2 then .intR s1 (max b1 b2) else .inv
  | .flR b1, .flR b2 => .flR (max b1 b2)
  | .atomR t1, .atomR t2 => if t1 = t2 then .atomR t1 else .inv
  | _, _ => .inv

/-- A type is peer-simple when it is neither a literal numeric nor an
error union - the members the amended C7 claim quantifies over. -/
def isPeerSimple : ZigType → Bool
  | .numLitInt => false
  | .numLitFloat => false
  | .errorUnion _ => false
  | _ => true

/-- toRep reads back: the inv abstraction only comes from invalid. -/
theorem toRep_eq_inv_iff (t : ZigType) : toRep t = .inv ↔ t = ZigType.invalid := by
  cases t <;> simp [toRep, canonType]

/-- toRep reads back: the unr abstraction only comes from unreachable. -/
theorem toRep_eq_unr_iff (t : ZigType) :
    toRep t = .unr ↔ t = ZigType.unreachableT := by
  cases t <;> simp [toRep, canonType]

/-- toRep reads back integers exactly. -/
theorem toRep_eq_intR_iff (t : ZigType) (s : Bool) (b : Nat) :
    toRep t = .intR s b ↔ t = ZigType.int s b := by
  cases t <;> simp [toRep, canonType]

/-- toRep reads back floats exactly. -/
theorem toRep_eq_flR_iff (t : ZigType) (b : Nat) :
    toRep t = .flR b ↔ t = ZigType.float b := by
  cases t <;> simp [toRep, canonType]

/-- Two types with the same abstraction are equal modulo const. -/
theorem toRep_inj (t u : ZigType) (h : toRep t = toRep u) :
    canonType t = canonType u := by
  unfold toRep at h
  cases ht : canonType t <;> cases hu : canonType u <;>
    rw [ht, hu] at h <;> simp_all

/-- The abstraction respects const-erased equality. -/
theorem toRep_congr (t u : ZigType) (h : canonType t = canonType u) :
    toRep t = toRep u := by
  unfold toRep
  rw [h]

/-- repJoin is idempotent. -/
theorem repJoin_self (x : PeerRep) : repJoin x x = x := by
  cases x <;> simp [repJoin]

/-- inv absorbs on the left. -/
theorem repJoin_inv_left (y : PeerRep) : repJoin .inv y = .inv := by
  cases y <;> rfl

/-- inv absorbs on the right. -/
theorem repJoin_inv_right (x : PeerRep) : repJoin x .inv = .inv := by
  cases x <;> rfl

/-- unr is a left identity away from inv. -/
theorem repJoin_unr_left (y : PeerRep) (h : y ≠ .inv) : repJoin .unr y = y := by
  cases y <;> simp_all [repJoin]

/-- unr is a right identity away from inv. -/
theorem repJoin_unr_right (x : PeerRep) (h : x ≠ .inv) : repJoin x .unr = x := by
  cases x <;> simp_all [repJoin]

/-- A fold of repJoin from inv stays inv. -/
theorem foldl_repJoin_inv (l : List PeerRep) :
    List.foldl repJoin .inv l = .inv := by
  induction l with
  | nil => rfl
  | cons x xs ih => simpa [repJoin_inv_left] using ih

/-- repJoin is left-commutative, the shape List.Perm.foldl_eq' needs. -/
theorem repJoin_left_comm (z x y : PeerRep) :
    repJoin (repJoin z x) y = repJoin (repJoin z y) x := by
  rcases z with _ | _ | ⟨s1, b1⟩ | b1 | t1 <;>
    rcases x with _ | _ | ⟨s2, b2⟩ | b2 | t2 <;>
      rcases y with _ | _ | ⟨s3, b3⟩ | b3 | t3 <;>
        simp only [repJoin] <;> (try split_ifs) <;>
          simp_all [repJoin, Nat.max_assoc, Nat.max_comm, Nat.max_left_comm]

/-- A peer-simple type never triggers the error-union absorption test. -/
theorem peerErrorUnionAbsorbs_of_simple (t u : ZigType)
    (h : isPeerSimple t = true) : peerErrorUnionAbsorbs t u = false := by
  cases t <;> simp_all [isPeerSimple, peerErrorUnionAbsorbs]

/-- A peer-simple type is not a literal numeric. -/
theorem peerIsNumLit_of_simple (t : ZigType) (h : isPeerSimple t = true) :
    peerIsNumLit t = false := by
  cases t <;> simp_all [isPeerSimple, peerIsNumLit]

/-- toRep to atomR reads back the canonical form. -/
theorem toRep_eq_atomR (t u : ZigType) (h : toRep t = .atomR u) :
    canonType t = u := by
  unfold toRep at h
  cases ht : canonType t <;> rw [ht] at h <;> simp_all

/-- Exact-match-modulo-const is symmetric. -/
theorem types_match_cc_symm (a b : ZigType) :
    types_match_const_cast_only a b = types_match_const_cast_only b a := by
  unfold types_match_const_cast_only
  rw [Bool.eq_iff_iff]
  simp only [beq_iff_eq]
  exact eq_comm

/-- Inversion of the same-signedness integer test. -/
theorem peerBothIntSameSign_inv (p c : ZigType)
    (h : peerBothIntSameSign p c = true) :
    ∃ s pb cb, p = ZigType.int s pb ∧ c = ZigType.int s cb := by
  unfold peerBothIntSameSign at h
  split at h
  · rename_i ps pb cs cb
    rw [beq_iff_eq] at h
    exact ⟨ps, pb, cb, rfl, by rw [h]⟩
  · exact Bool.noConfusion h

/-- Inversion of the both-floats test. -/
theorem peerBothFloat_inv (p c : ZigType) (h : peerBothFloat p c = true) :
    ∃ pb cb, p = ZigType.float pb ∧ c = ZigType.float cb := by
  unfold peerBothFloat at h
  split at h
  · rename_i pb cb
    exact ⟨pb, cb, rfl, rfl⟩
  · exact Bool.noConfusion h

/-- toRep on a sized integer. -/
theorem toRep_int (s : Bool) (b : Nat) :
    toRep (ZigType.int s b) = PeerRep.intR s b := rfl

/-- toRep on a float. -/
theorem toRep_float (b : Nat) : toRep (ZigType.float b) = PeerRep.flR b := rfl

/-- repJoin on same-signedness integer abstractions takes the max. -/
theorem repJoin_intR (s : Bool) (pb cb : Nat) :
    repJoin (PeerRep.intR s pb) (PeerRep.intR s cb) =
      PeerRep.intR s (max pb cb) := by
  simp [repJoin]

/-- repJoin on float abstractions takes the max. -/
theorem repJoin_flR (pb cb : Nat) :
    repJoin (PeerRep.flR pb) (PeerRep.flR cb) = PeerRep.flR (max pb cb) := rfl

/-- When the mismatch fall-through of the peer loop is reached on
peer-simple types, the abstract join is already inv. -/
theorem repJoin_toRep_inv (p c : ZigType)
    (hp : p ≠ ZigType.invalid) (_hc : c ≠ ZigType.invalid)
    (hm : types_match_const_cast_only p c = false)
    (hpu : p ≠ ZigType.unreachableT) (hcu : c ≠ ZigType.unreachableT)
    (hint : peerBothIntSameSign p c = false)
    (hfl : peerBothFloat p c = false) :
    repJoin (toRep p) (toRep c) = PeerRep.inv := by
  cases hP : toRep p with
  | inv => exact absurd ((toRep_eq_inv_iff p).mp hP) hp
  | unr => exact absurd ((toRep_eq_unr_iff p).mp hP) hpu
  | intR s b =>
    have hpe := (toRep_eq_intR_iff p s b).mp hP
    cases hC : toRep c with
    | inv => rfl
    | unr => exact absurd ((toRep_eq_unr_iff c).mp hC) hcu
    | intR s2 b2 =>
      have hce := (toRep_eq_intR_iff c s2 b2).mp hC
      rw [hpe, hce] at hint
      simp only [peerBothIntSameSign, beq_eq_false_iff_ne, ne_eq] at hint
      simp [repJoin, hint]
    | flR b2 => rfl
    | atomR u2 => rfl
  | flR b =>
    have hpe := (toRep_eq_flR_iff p b).mp hP
    cases hC : toRep c with
    | inv => rfl
    | unr => exact absurd ((toRep_eq_unr_iff c).mp hC) hcu
    | intR s2 b2 => rfl
    | flR b2 =>
      have hce := (toRep_eq_flR_iff c b2).mp hC
      rw [hpe, hce] at hfl
      simp [peerBothFloat] at hfl
    | atomR u2 => rfl
  | atomR u =>
    have hpe := toRep_eq_atomR p u hP
    cases hC : toRep c with
    | inv => rfl
    | unr => exact absurd ((toRep_eq_unr_iff c).mp hC) hcu
    | intR s2 b2 => rfl
    | flR b2 => rfl
    | atomR u2 =>
      have hce := toRep_eq_atomR c u2 hC
      have hne : u ≠ u2 := by
        intro hequ
        rw [types_match_const_cast_only, hpe, hce, hequ] at hm
        simp at hm
      simp [repJoin, hne]

/-- Bridge: on peer-simple members the peer loop computes exactly the
fold of repJoin over the member abstractions. -/
theorem goPeer_toRep (rest : List IrInst) :
    ∀ prev : IrInst, prev.type_entry ≠ ZigType.invalid →
    isPeerSimple prev.type_entry = true →
    (∀ i ∈ rest, isPeerSimple i.type_entry = true) →
    toRep (ir_determine_peer_types_go prev rest) =
      List.foldl repJoin (toRep prev.type_entry)
        (rest.map (fun i => toRep i.type_entry)) := by
  induction rest with
  | nil => intro prev _ _ _; rfl
  | cons cur rest ih =>
    intro prev hprev hps hall
    have hcs : isPeerSimple cur.type_entry = true := hall cur (by simp)
    have hrest : ∀ i ∈ rest, isPeerSimple i.type_entry = true :=
      fun i hi => hall i (List.mem_cons_of_mem _ hi)
    rw [ir_determine_peer_types_go]
    simp only [List.map_cons, List.foldl_cons]
    by_cases h1 : cur.type_entry = ZigType.invalid
    · rw [if_pos h1, h1]
      have hinv : toRep ZigType.invalid = PeerRep.inv := rfl
      rw [hinv, repJoin_inv_right, foldl_repJoin_inv]
    · rw [if_neg h1]
      by_cases h2 : types_match_const_cast_only prev.type_entry cur.type_entry = true
      · rw [if_pos h2, ih prev hprev hps hrest]
        have hcanon : canonType prev.type_entry = canonType cur.type_entry := by
          simpa [types_match_const_cast_only] using h2
        rw [← toRep_congr _ _ hcanon, repJoin_self]
      · rw [if_neg h2]
        have h3 : ¬ types_match_const_cast_only cur.type_entry prev.type_entry = true := by
          rw [types_match_cc_symm]; exact h2
        rw [if_neg h3]
        by_cases h4 : prev.type_entry = ZigType.unreachableT
        · rw [if_pos h4, ih cur h1 hcs hrest]
          have hu : toRep prev.type_entry = PeerRep.unr := (toRep_eq_unr_iff _).mpr h4
          rw [hu, repJoin_unr_left _ (fun hinv => h1 ((toRep_eq_inv_iff _).mp hinv))]
        · rw [if_neg h4]
          by_cases h5 : cur.type_entry = ZigType.unreachableT
          · rw [if_pos h5, ih prev hprev hps hrest]
            have hu : toRep cur.type_entry = PeerRep.unr := (toRep_eq_unr_iff _).mpr h5
            rw [hu, repJoin_unr_right _ (fun hinv => hprev ((toRep_eq_inv_iff _).mp hinv))]
          · rw [if_neg h5]
            by_cases h6 : peerBothIntSameSign prev.type_entry cur.type_entry = true
            · obtain ⟨s, pb, cb, hpe, hce⟩ := peerBothIntSameSign_inv _ _ h6
              rw [if_pos h6]
              by_cases h6w : peerCurIntWider prev.type_entry cur.type_entry = true
              · rw [if_pos h6w, ih cur h1 hcs hrest]
                have hw : pb < cb := by
                  rw [hpe, hce] at h6w
                  simpa [peerCurIntWider] using h6w
                rw [hpe, hce, toRep_int, toRep_int, repJoin_intR,
                  Nat.max_eq_right (Nat.le_of_lt hw)]
              · rw [if_neg h6w, ih prev hprev hps hrest]
                have hw : cb ≤ pb := by
                  rw [hpe, hce] at h6w
                  simpa [peerCurIntWider, Nat.not_lt] using h6w
                rw [hpe, hce, toRep_int, toRep_int, repJoin_intR,
                  Nat.max_eq_left hw]
            · rw [if_neg h6]
              by_cases h7 : peerBothFloat prev.type_entry cur.type_entry = true
              · obtain ⟨pb, cb, hpe, hce⟩ := peerBothFloat_inv _ _ h7
                rw [if_pos h7]
                by_cases h7w : peerCurFloatWider prev.type_entry cur.type_entry = true
                · rw [if_pos h7w, ih cur h1 hcs hrest]
                  have hw : pb < cb := by
                    rw [hpe, hce] at h7w
                    simpa [peerCurFloatWider] using h7w
                  rw [hpe, hce, toRep_float, toRep_float, repJoin_flR,
                    Nat.max_eq_right (Nat.le_of_lt hw)]
                · rw [if_neg h7w, ih prev hprev hps hrest]
                  have hw : cb ≤ pb := by
                    rw [hpe, hce] at h7w
                    simpa [peerCurFloatWider, Nat.not_lt] using h7w
                  rw [hpe, hce, toRep_float, toRep_float, repJoin_flR,
                    Nat.max_eq_left hw]
              · rw [if_neg h7]
                rw [if_neg (by
                  simp [peerErrorUnionAbsorbs_of_simple _ cur.type_entry hps])]
                rw [if_neg (by
                  simp [peerErrorUnionAbsorbs_of_simple _ prev.type_entry hcs])]
                rw [if_neg (by simp [peerIsNumLit_of_simple _ hps])]
                rw [if_neg (by simp [peerIsNumLit_of_simple _ hcs])]
                rw [repJoin_toRep_inv prev.type_entry cur.type_entry hprev h1
                  (by simpa using h2) h4 h5 (by simpa using h6) (by simpa using h7),
                  foldl_repJoin_inv]
                rfl

/-- ir_resolve_peer_types of a non-empty peer-simple list is the fold
of repJoin from unr over the member abstractions. -/
theorem peer_toRep_fold (l : List IrInst) (hne : l ≠ [])
    (hall : ∀ i ∈ l, isPeerSimple i.type_entry = true) :
    toRep (ir_resolve_peer_types l) =
      List.foldl repJoin PeerRep.unr (l.map (fun i => toRep i.type_entry)) := by
  match l, hne with
  | prev :: rest, _ =>
    have hrest : ∀ i ∈ rest, isPeerSimple i.type_entry = true :=
      fun i hi => hall i (List.mem_cons_of_mem _ hi)
    rw [ir_resolve_peer_types, ir_determine_peer_types]
    simp only [List.map_cons, List.foldl_cons]
    by_cases hp : prev.type_entry = ZigType.invalid
    · rw [if_pos hp, hp]
      have hinv : toRep ZigType.invalid = PeerRep.inv := rfl
      rw [hinv, repJoin_inv_right, foldl_repJoin_inv]
    · rw [if_neg hp,
        goPeer_toRep rest prev hp (hall prev (by simp)) hrest,
        repJoin_unr_left _ (fun hinv => hp ((toRep_eq_inv_iff _).mp hinv))]

/-- C7 (amended): order independence of peer-type resolution holds on
permutations of a non-empty list all of whose member types are
peer-simple (neither literal-numeric nor an error union): the results
of the two resolutions match exactly modulo pointer const.  Literal
numerics are excluded exactly as the claim does; error unions must be
excluded as well, as c7_peer_types_counterexample shows the resolution
is order-dependent in their presence. -/
theorem c7_peer_types_amended (l1 l2 : List IrInst)
    (hperm : List.Perm l1 l2) (hne : l1 ≠ [])
    (hall : ∀ i ∈ l1, isPeerSimple i.type_entry = true) :
    types_match_const_cast_only (ir_resolve_peer_types l1)
      (ir_resolve_peer_types l2) = true := by
  have hne2 : l2 ≠ [] := by
    intro h
    rw [h] at hperm
    exact hne hperm.eq_nil
  have hall2 : ∀ i ∈ l2, isPeerSimple i.type_entry = true :=
    fun i hi => hall i (hperm.mem_iff.mpr hi)
  have hmperm : List.Perm (l1.map (fun i => toRep i.type_entry))
      (l2.map (fun i => toRep i.type_entry)) := hperm.map _
  have hfold : List.foldl repJoin PeerRep.unr (l1.map (fun i => toRep i.type_entry))
      = List.foldl repJoin PeerRep.unr (l2.map (fun i => toRep i.type_entry)) :=
    hmperm.foldl_eq' (fun x _ y _ z => repJoin_left_comm z x y) _
  have hrep : toRep (ir_resolve_peer_types l1) = toRep (ir_resolve_peer_types l2) := by
    rw [peer_toRep_fold l1 hne hall, peer_toRep_fold l2 hne2 hall2, hfold]
  have hcanon := toRep_inj _ _ hrep
  simp [types_match_const_cast_only, hcanon]

/-- Witness for C7 amended: [u8, u16] and [u16, u8] resolve to types
matching modulo const (both to u16). -/
theorem c7_peer_types_amended_witness :
    types_match_const_cast_only
      (ir_resolve_peer_types
        [(⟨.otherInst, ZigType.int false 8, runtimeVal⟩ : IrInst),
         ⟨.otherInst, ZigType.int false 16, runtimeVal⟩])
      (ir_resolve_peer_types
        [⟨.otherInst, ZigType.int false 16, runtimeVal⟩,
         ⟨.otherInst, ZigType.int false 8, runtimeVal⟩]) = true :=
  c7_peer_types_amended _ _ (List.Perm.swap _ _ [])
    (by simp) (by decide)

/-- Instructions appended by the IR-builder helpers that the loop
generators call; builders whose payload is irrelevant to the stack
discipline are collapsed to their builder name. -/
inductive BuildInstr where
  | brB : Nat → Bool → BuildInstr
  | condBrB : Nat → Nat → Bool → BuildInstr
  | constVoidB : BuildInstr
  | typeofB : BuildInstr
  | toPtrTypeB : BuildInstr
  | ptrTypeChildB : BuildInstr
  | varDeclB : BuildInstr
  | constUndefB : BuildInstr
  | varPtrB : BuildInstr
  | constTypeB : BuildInstr
  | constUsizeB : BuildInstr
  | arrayLenB : BuildInstr
  | loadPtrB : BuildInstr
  | binOpB : BuildInstr
  | elemPtrB : BuildInstr
  | storePtrB : BuildInstr
deriving DecidableEq, Repr

/-- State of the IR builder (struct IrBuilder plus its codegen error
list): the next basic-block debug id, the break/continue target
stacks (the C code appends and pops at the list end; here the top of
stack is the list head), the cursor block instructions append to, the
instructions emitted so far with their block, and the reported
compile errors. -/
structure IrBuilderState where
  next_block_id : Nat
  break_block_stack : List Nat
  continue_block_stack : List Nat
  cursor : Nat
  emitted : List (Nat × BuildInstr)
  errors : List String
deriving DecidableEq, Repr

/-- ir_build_basic_block: allocate a fresh block. -/
def ir_build_basic_block (st : IrBuilderState) : Nat × IrBuilderState :=
  (st.next_block_id, { st with next_block_id := st.next_block_id + 1 })

/-- ir_set_cursor_at_end. -/
def ir_set_cursor_at_end (st : IrBuilderState) (b : Nat) : IrBuilderState :=
  { st with cursor := b }

/-- ir_build_instruction / ir_instruction_append: append to the cursor
block. -/
def emitInstr (st : IrBuilderState) (i : BuildInstr) : IrBuilderState :=
  { st with emitted := st.emitted ++ [(st.cursor, i)] }

/-- ir_build_br. -/
def ir_build_br (st : IrBuilderState) (target : Nat) (inl : Bool) : IrBuilderState :=
  emitInstr st (.brB target inl)

/-- ir_build_cond_br. -/
def ir_build_cond_br (st : IrBuilderState) (tb eb : Nat) (inl : Bool) : IrBuilderState :=
  emitInstr st (.condBrB tb eb inl)

/-- add_node_error on the builder state. -/
def addBuildError (st : IrBuilderState) (msg : String) : IrBuilderState :=
  { st with errors := st.errors ++ [msg] }

/-- The while AST node data the generator reads: whether a continue
expression is present, and the resolved inline flag
(ir_should_inline(irb) || node->data.while_expr.is_inline). -/
structure WhileNode where
  has_continue_expr : Bool
  is_inline : Bool
deriving DecidableEq, Repr

/-- ir_gen_while_expr (ir.cpp 2014-2051) up to and including the two
stack pushes that precede the body generation: block allocation, the
entry branch, the continue-expression block, the condition block and
its CondBr, the cursor move to the body block, and the pushes of
end_block / continue_block.  Generation of the continue expression
and of the condition is passed in as oracles.  Returns the state the
body generator receives together with continue_block and end_block. -/
def whilePreBody (genContinue genCond : IrBuilderState → IrBuilderState)
    (node : WhileNode) (st : IrBuilderState) : IrBuilderState × Nat × Nat :=
  let (cond_block, st) := ir_build_basic_block st
  let (body_block, st) := ir_build_basic_block st
  let (continue_block, st) :=
    if node.has_continue_expr then ir_build_basic_block st else (cond_block, st)
  let (end_block, st) := ir_build_basic_block st
  let st := ir_build_br st cond_block node.is_inline
  let st :=
    if node.has_continue_expr then
      let st := ir_set_cursor_at_end st continue_block
      let st := genContinue st
      ir_build_br st cond_block node.is_inline
    else st
  let st := ir_set_cursor_at_end st cond_block
  let st := genCond st
  let st := ir_build_cond_br st body_block end_block node.is_inline
  let st := ir_set_cursor_at_end st body_block
  let st := { st with
    break_block_stack := end_block :: st.break_block_stack
    continue_block_stack := continue_block :: st.continue_block_stack }
  (st, continue_block, end_block)

/-- Translation of ir_gen_while_expr (ir.cpp 2014-2051): the preamble,
the body generation between the stack pushes and pops, the branch
back to the continue block and the final ConstVoid in the end
block. -/
def ir_gen_while_expr (genContinue genCond genBody : IrBuilderState → IrBuilderState)
    (node : WhileNode) (st : IrBuilderState) : IrBuilderState :=
  match whilePreBody genContinue genCond node st with
  | (st, continue_block, end_block) =>
    let st := genBody st
    let st := { st with
      break_block_stack := st.break_block_stack.tail
      continue_block_stack := st.continue_block_stack.tail }
    let st := ir_build_br st continue_block node.is_inline
    let st := ir_set_cursor_at_end st end_block
    emitInstr st .constVoidB

/-- The for AST node data the generator reads. -/
structure ForNode where
  has_elem_node : Bool
  has_index_node : Bool
  elem_is_ptr : Bool
  is_inline : Bool
deriving DecidableEq, Repr

/-- ir_gen_for_expr (ir.cpp 2053-2134) up to the body generation,
stopping just before the two stack pushes: the missing-element error,
the array expression (an oracle returning success), the element and
index variable preamble, block allocation, the entry branch, the
condition block and its CondBr, and the cursor move to the body block
with the element store.  The second component is none on the early
invalid-instruction returns, otherwise
(cond_block, continue_block, end_block). -/
def forPreamble (genArray : IrBuilderState → IrBuilderState × Bool)
    (node : ForNode) (st : IrBuilderState) :
    IrBuilderState × Option (Nat × Nat × Nat) :=
  if node.has_elem_node = false then
    (addBuildError st "for loop expression missing element parameter", none)
  else
    match genArray st with
    | (st, false) => (st, none)
    | (st, true) =>
      let st := emitInstr st .typeofB
      let st := emitInstr st .toPtrTypeB
      let st := if node.elem_is_ptr then st else emitInstr st .ptrTypeChildB
      let st := emitInstr st .constUndefB
      let st := emitInstr st .varDeclB
      let st := emitInstr st .varPtrB
      let st := emitInstr st .constTypeB
      let st := emitInstr st .constUsizeB
      let st := emitInstr st .constUsizeB
      let st := emitInstr st .varDeclB
      let st := emitInstr st .varPtrB
      let (cond_block, st) := ir_build_basic_block st
      let (body_block, st) := ir_build_basic_block st
      let (end_block, st) := ir_build_basic_block st
      let (continue_block, st) := ir_build_basic_block st
      let st := emitInstr st .arrayLenB
      let st := ir_build_br st cond_block node.is_inline
      let st := ir_set_cursor_at_end st cond_block
      let st := emitInstr st .loadPtrB
      let st := emitInstr st .binOpB
      let st := ir_build_cond_br st body_block end_block node.is_inline
      let st := ir_set_cursor_at_end st body_block
      let st := emitInstr st .elemPtrB
      let st := if node.elem_is_ptr then st else emitInstr st .loadPtrB
      let st := emitInstr st .storePtrB
      (st, some (cond_block, continue_block, end_block))

/-- The two stack appends at ir.cpp 2136-2137: push end_block on the
break stack and continue_block on the continue stack. -/
def forBodyEntry (st : IrBuilderState) (continue_block end_block : Nat) :
    IrBuilderState :=
  { st with
    break_block_stack := end_block :: st.break_block_stack
    continue_block_stack := continue_block :: st.continue_block_stack }

/-- Result of one ir_gen_node_raw dispatch: a built instruction, the
invalid instruction, or the zig_panic abort (which reports no compile
error and stops the compiler process). -/
inductive GenOutcome where
  | instrRes : GenOutcome
  | invalidRes : GenOutcome
  | panicTODO : String → GenOutcome
deriving DecidableEq, Repr

/-- Translation of ir_gen_for_expr (ir.cpp 2053-2154): the preamble,
the stack pushes, the body generation between the pushes and the pops
(ir.cpp 2136-2140), the branch to the continue block, the index
increment and the back branch, and the final ConstVoid in the end
block. -/
def ir_gen_for_expr (genArray : IrBuilderState → IrBuilderState × Bool)
    (genBody : IrBuilderState → IrBuilderState)
    (node : ForNode) (st : IrBuilderState) : GenOutcome × IrBuilderState :=
  match forPreamble genArray node st with
  | (st, none) => (.invalidRes, st)
  | (st, some (cond_block, continue_block, end_block)) =>
    let st := forBodyEntry st continue_block end_block
    let st := genBody st
    let st := { st with
      break_block_stack := st.break_block_stack.tail
      continue_block_stack := st.continue_block_stack.tail }
    let st := ir_build_br st continue_block node.is_inline
    let st := ir_set_cursor_at_end st continue_block
    let st := emitInstr st .binOpB
    let st := emitInstr st .storePtrB
    let st := ir_build_br st cond_block node.is_inline
    let st := ir_set_cursor_at_end st end_block
    (.instrRes, emitInstr st .constVoidB)

/-- The node types of the ir_gen_node_raw dispatch relevant to the
loop/break claims. -/
inductive LoopAstNode where
  | whileExpr : WhileNode → LoopAstNode
  | forExpr : ForNode → LoopAstNode
  | breakNode : LoopAstNode
  | continueNode : LoopAstNode

/-- Translation of the ir_gen_node_raw dispatch (ir.cpp 2619-2695)
restricted to these node types: while and for route to their
generators; NodeTypeBreak and NodeTypeContinue fall into the
zig_panic("TODO more IR gen for node types") arm (ir.cpp 2674-2693),
which reports no compile error and never consults the break/continue
stacks. -/
def ir_gen_node_raw (genContinue genCond genBody : IrBuilderState → IrBuilderState)
    (genArray : IrBuilderState → IrBuilderState × Bool) :
    LoopAstNode → IrBuilderState → GenOutcome × IrBuilderState
  | .whileExpr n, st => (.instrRes, ir_gen_while_expr genContinue genCond genBody n st)
  | .forExpr n, st => ir_gen_for_expr genArray genBody n st
  | .breakNode, st => (.panicTODO "TODO more IR gen for node types", st)
  | .continueNode, st => (.panicTODO "TODO more IR gen for node types", st)

/-- A sub-generation oracle that leaves the break/continue stacks
unchanged, as every implemented generator does outside its own
balanced push/pop pairs. -/
def stackNeutral (f : IrBuilderState → IrBuilderState) : Prop :=
  ∀ st, (f st).break_block_stack = st.break_block_stack ∧
    (f st).continue_block_stack = st.continue_block_stack

/-- The builder helpers do not touch the break stack. -/
@[simp] theorem emitInstr_break (st : IrBuilderState) (i : BuildInstr) :
    (emitInstr st i).break_block_stack = st.break_block_stack := rfl

/-- The builder helpers do not touch the continue stack. -/
@[simp] theorem emitInstr_continue (st : IrBuilderState) (i : BuildInstr) :
    (emitInstr st i).continue_block_stack = st.continue_block_stack := rfl

/-- Setting the cursor does not touch the break stack. -/
@[simp] theorem set_cursor_break (st : IrBuilderState) (b : Nat) :
    (ir_set_cursor_at_end st b).break_block_stack = st.break_block_stack := rfl

/-- Setting the cursor does not touch the continue stack. -/
@[simp] theorem set_cursor_continue (st : IrBuilderState) (b : Nat) :
    (ir_set_cursor_at_end st b).continue_block_stack = st.continue_block_stack := rfl

/-- Allocating a block does not touch the break stack. -/
@[simp] theorem build_bb_break (st : IrBuilderState) :
    (ir_build_basic_block st).2.break_block_stack = st.break_block_stack := rfl

/-- Allocating a block does not touch the continue stack. -/
@[simp] theorem build_bb_continue (st : IrBuilderState) :
    (ir_build_basic_block st).2.continue_block_stack = st.continue_block_stack := rfl

/-- Emitting a Br does not touch the break stack. -/
@[simp] theorem build_br_break (st : IrBuilderState) (t : Nat) (inl : Bool) :
    (ir_build_br st t inl).break_block_stack = st.break_block_stack := rfl

/-- Emitting a Br does not touch the continue stack. -/
@[simp] theorem build_br_continue (st : IrBuilderState) (t : Nat) (inl : Bool) :
    (ir_build_br st t inl).continue_block_stack = st.continue_block_stack := rfl

/-- Emitting a CondBr does not touch the break stack. -/
@[simp] theorem build_cond_br_break (st : IrBuilderState) (tb eb : Nat) (inl : Bool) :
    (ir_build_cond_br st tb eb inl).break_block_stack = st.break_block_stack := rfl

/-- Emitting a CondBr does not touch the continue stack. -/
@[simp] theorem build_cond_br_continue (st : IrBuilderState) (tb eb : Nat) (inl : Bool) :
    (ir_build_cond_br st tb eb inl).continue_block_stack = st.continue_block_stack := rfl

/-- The state whilePreBody hands to the body generator carries the
pushed stacks: end_block on the break stack, continue_block on the
continue stack. -/
theorem whilePreBody_stacks (genContinue genCond : IrBuilderState → IrBuilderState)
    (hgc : stackNeutral genContinue) (hgcd : stackNeutral genCond)
    (node : WhileNode) (st : IrBuilderState) :
    (whilePreBody genContinue genCond node st).1.break_block_stack =
      (whilePreBody genContinue genCond node st).2.2 :: st.break_block_stack ∧
    (whilePreBody genContinue genCond node st).1.continue_block_stack =
      (whilePreBody genContinue genCond node st).2.1 :: st.continue_block_stack := by
  by_cases hc : node.has_continue_expr = true <;>
    simp [whilePreBody, hc, ir_build_basic_block,
      fun s => (hgc s).1, fun s => (hgc s).2, fun s => (hgcd s).1, fun s => (hgcd s).2]

/-- ir_gen_while_expr restores the break/continue stacks it found. -/
theorem ir_gen_while_expr_stacks
    (genContinue genCond genBody : IrBuilderState → IrBuilderState)
    (hgc : stackNeutral genContinue) (hgcd : stackNeutral genCond)
    (hgb : stackNeutral genBody) (node : WhileNode) (st : IrBuilderState) :
    (ir_gen_while_expr genContinue genCond genBody node st).break_block_stack =
      st.break_block_stack ∧
    (ir_gen_while_expr genContinue genCond genBody node st).continue_block_stack =
      st.continue_block_stack := by
  have h := whilePreBody_stacks genContinue genCond hgc hgcd node st
  rcases hw : whilePreBody genContinue genCond node st with ⟨st1, cb, eb⟩
  rw [hw] at h
  simp only at h
  rw [ir_gen_while_expr, hw]
  simp [(hgb st1).1, (hgb st1).2, h.1, h.2]

/-- forPreamble leaves the break stack unchanged on every path. -/
theorem forPreamble_break (genArray : IrBuilderState → IrBuilderState × Bool)
    (hga : ∀ s, (genArray s).1.break_block_stack = s.break_block_stack ∧
      (genArray s).1.continue_block_stack = s.continue_block_stack)
    (node : ForNode) (st : IrBuilderState) :
    (forPreamble genArray node st).1.break_block_stack = st.break_block_stack := by
  rcases hg : genArray st with ⟨stg, ok⟩
  have hb := (hga st).1
  rw [hg] at hb
  simp only at hb
  by_cases he : node.has_elem_node = false <;>
    cases ok <;>
      by_cases hp : node.elem_is_ptr = true <;>
        simp [forPreamble, he, hg, hp, ir_build_basic_block, addBuildError, hb]

/-- forPreamble leaves the continue stack unchanged on every path. -/
theorem forPreamble_continue (genArray : IrBuilderState → IrBuilderState × Bool)
    (hga : ∀ s, (genArray s).1.break_block_stack = s.break_block_stack ∧
      (genArray s).1.continue_block_stack = s.continue_block_stack)
    (node : ForNode) (st : IrBuilderState) :
    (forPreamble genArray node st).1.continue_block_stack =
      st.continue_block_stack := by
  rcases hg : genArray st with ⟨stg, ok⟩
  have hk := (hga st).2
  rw [hg] at hk
  simp only at hk
  by_cases he : node.has_elem_node = false <;>
    cases ok <;>
      by_cases hp : node.elem_is_ptr = true <;>
        simp [forPreamble, he, hg, hp, ir_build_basic_block, addBuildError, hk]

/-- The state the for body generator receives carries the pushed
stacks: end_block on the break stack, continue_block on the continue
stack. -/
theorem forBody_sees_pushed (genArray : IrBuilderState → IrBuilderState × Bool)
    (hga : ∀ s, (genArray s).1.break_block_stack = s.break_block_stack ∧
      (genArray s).1.continue_block_stack = s.continue_block_stack)
    (node : ForNode) (st : IrBuilderState) :
    ∀ st1 kb cb eb, forPreamble genArray node st = (st1, some (kb, cb, eb)) →
      (forBodyEntry st1 cb eb).break_block_stack = eb :: st.break_block_stack ∧
      (forBodyEntry st1 cb eb).continue_block_stack =
        cb :: st.continue_block_stack := by
  intro st1 kb cb eb h
  have h1 : (forPreamble genArray node st).1 = st1 := by rw [h]
  constructor
  · show eb :: st1.break_block_stack = eb :: st.break_block_stack
    rw [← h1, forPreamble_break genArray hga node st]
  · show cb :: st1.continue_block_stack = cb :: st.continue_block_stack
    rw [← h1, forPreamble_continue genArray hga node st]

/-- ir_gen_for_expr restores the break/continue stacks it found. -/
theorem ir_gen_for_expr_stacks (genArray : IrBuilderState → IrBuilderState × Bool)
    (genBody : IrBuilderState → IrBuilderState)
    (hga : ∀ s, (genArray s).1.break_block_stack = s.break_block_stack ∧
      (genArray s).1.continue_block_stack = s.continue_block_stack)
    (hgb : stackNeutral genBody) (node : ForNode) (st : IrBuilderState) :
    (ir_gen_for_expr genArray genBody node st).2.break_block_stack =
      st.break_block_stack ∧
    (ir_gen_for_expr genArray genBody node st).2.continue_block_stack =
      st.continue_block_stack := by
  have hbrk := forPreamble_break genArray hga node st
  have hcnt := forPreamble_continue genArray hga node st
  rcases hw : forPreamble genArray node st with ⟨st1, opt⟩
  rw [hw] at hbrk hcnt
  simp only at hbrk hcnt
  rw [ir_gen_for_expr, hw]
  cases opt with
  | none =>
    constructor
    · simpa using hbrk
    · simpa using hcnt
  | some tri =>
    rcases tri with ⟨kb, cb, eb⟩
    constructor
    · show (genBody (forBodyEntry st1 cb eb)).break_block_stack.tail =
        st.break_block_stack
      rw [(hgb (forBodyEntry st1 cb eb)).1]
      show (eb :: st1.break_block_stack).tail = st.break_block_stack
      rw [List.tail_cons]
      exact hbrk
    · show (genBody (forBodyEntry st1 cb eb)).continue_block_stack.tail =
        st.continue_block_stack
      rw [(hgb (forBodyEntry st1 cb eb)).2]
      show (cb :: st1.continue_block_stack).tail = st.continue_block_stack
      rw [List.tail_cons]
      exact hcnt

/-- C8 counterexample: IR generation for a break statement with both
target stacks empty does not report a compile error - it hits the
zig_panic("TODO more IR gen for node types") arm of ir_gen_node_raw,
leaving the error list empty (and likewise for continue). -/
theorem c8_break_counterexample :
    ir_gen_node_raw id id id (fun s => (s, true)) LoopAstNode.breakNode
      { next_block_id := 0, break_block_stack := [], continue_block_stack := [],
        cursor := 0, emitted := [], errors := [] } =
      (GenOutcome.panicTODO "TODO more IR gen for node types",
       { next_block_id := 0, break_block_stack := [], continue_block_stack := [],
         cursor := 0, emitted := [], errors := [] }) ∧
    ir_gen_node_raw id id id (fun s => (s, true)) LoopAstNode.continueNode
      { next_block_id := 0, break_block_stack := [], continue_block_stack := [],
        cursor := 0, emitted := [], errors := [] } =
      (GenOutcome.panicTODO "TODO more IR gen for node types",
       { next_block_id := 0, break_block_stack := [], continue_block_stack := [],
         cursor := 0, emitted := [], errors := [] }) :=
  ⟨rfl, rfl⟩

/-- C8 (amended): the builder does maintain the two target stacks -
ir_gen_while_expr and ir_gen_for_expr push end_block on the break
stack and continue_block on the continue stack for the body
generation and restore the stacks on exit (for sub-generation oracles
that leave the stacks balanced) - but generating IR for a break or
continue statement is unimplemented: whatever the stacks hold, the
dispatch aborts the compiler with zig_panic("TODO more IR gen for
node types") and reports no compile error, so an empty-stack break or
continue is NOT a compile error in this code. -/
theorem c8_loop_stacks_amended
    (genContinue genCond genBody : IrBuilderState → IrBuilderState)
    (genArray : IrBuilderState → IrBuilderState × Bool)
    (hgc : stackNeutral genContinue) (hgcd : stackNeutral genCond)
    (hgb : stackNeutral genBody)
    (hga : ∀ s, (genArray s).1.break_block_stack = s.break_block_stack ∧
      (genArray s).1.continue_block_stack = s.continue_block_stack)
    (wnode : WhileNode) (fnode : ForNode) (st : IrBuilderState) :
    ((whilePreBody genContinue genCond wnode st).1.break_block_stack =
        (whilePreBody genContinue genCond wnode st).2.2 :: st.break_block_stack ∧
      (whilePreBody genContinue genCond wnode st).1.continue_block_stack =
        (whilePreBody genContinue genCond wnode st).2.1 :: st.continue_block_stack) ∧
    ((ir_gen_while_expr genContinue genCond genBody wnode st).break_block_stack =
        st.break_block_stack ∧
      (ir_gen_while_expr genContinue genCond genBody wnode st).continue_block_stack =
        st.continue_block_stack) ∧
    (∀ st1 kb cb eb, forPreamble genArray fnode st = (st1, some (kb, cb, eb)) →
      (forBodyEntry st1 cb eb).break_block_stack = eb :: st.break_block_stack ∧
      (forBodyEntry st1 cb eb).continue_block_stack =
        cb :: st.continue_block_stack) ∧
    ((ir_gen_for_expr genArray genBody fnode st).2.break_block_stack =
        st.break_block_stack ∧
      (ir_gen_for_expr genArray genBody fnode st).2.continue_block_stack =
        st.continue_block_stack) ∧
    (∀ s : IrBuilderState,
      ir_gen_node_raw genContinue genCond genBody genArray .breakNode s =
        (.panicTODO "TODO more IR gen for node types", s) ∧
      s.errors = (ir_gen_node_raw genContinue genCond genBody genArray .breakNode s).2.errors ∧
      ir_gen_node_raw genContinue genCond genBody genArray .continueNode s =
        (.panicTODO "TODO more IR gen for node types", s)) :=
  ⟨whilePreBody_stacks genContinue genCond hgc hgcd wnode st,
   ir_gen_while_expr_stacks genContinue genCond genBody hgc hgcd hgb wnode st,
   forBody_sees_pushed genArray hga fnode st,
   ir_gen_for_expr_stacks genArray genBody hga hgb fnode st,
   fun _ => ⟨rfl, rfl, rfl⟩⟩

/-- Witness for C8 amended at identity oracles, a while loop with a
continue expression, a for loop with an index variable, and an empty
starting state. -/
theorem c8_loop_stacks_amended_witness :
    ((ir_gen_while_expr id id id { has_continue_expr := true, is_inline := false }
        { next_block_id := 0, break_block_stack := [], continue_block_stack := [],
          cursor := 0, emitted := [], errors := [] }).break_block_stack = [] ∧
      (ir_gen_for_expr (fun s => (s, true)) id
        { has_elem_node := true, has_index_node := true, elem_is_ptr := false,
          is_inline := false }
        { next_block_id := 0, break_block_stack := [], continue_block_stack := [],
          cursor := 0, emitted := [], errors := [] }).2.continue_block_stack = []) ∧
    (whilePreBody id id { has_continue_expr := true, is_inline := false }
        { next_block_id := 0, break_block_stack := [], continue_block_stack := [],
          cursor := 0, emitted := [], errors := [] }).1.break_block_stack =
      [(whilePreBody id id { has_continue_expr := true, is_inline := false }
        { next_block_id := 0, break_block_stack := [], continue_block_stack := [],
          cursor := 0, emitted := [], errors := [] }).2.2] := by
  have h := c8_loop_stacks_amended id id id (fun s => (s, true))
    (fun s => ⟨rfl, rfl⟩) (fun s => ⟨rfl, rfl⟩) (fun s => ⟨rfl, rfl⟩)
    (fun s => ⟨rfl, rfl⟩)
    { has_continue_expr := true, is_inline := false }
    { has_elem_node := true, has_index_node := true, elem_is_ptr := false,
      is_inline := false }
    { next_block_id := 0, break_block_stack := [], continue_block_stack := [],
      cursor := 0, emitted := [], errors := [] }
  exact ⟨⟨h.2.1.1, h.2.2.2.1.2⟩, h.1.1⟩

/-- One output entry of an asm AST node: whether it carries a return
type, whether IR generation of that return-type node succeeds (the
ir_gen_node oracle), and whether the named variable of a non-return
output resolves (the find_variable oracle). -/
structure AsmOutput where
  has_return_type : Bool
  gen_ok : Bool
  var_found : Bool
deriving DecidableEq, Repr

/-- The asm AST node data ir_gen_asm_expr reads: the outputs, the
inputs (whether each input expression generates successfully) and the
volatile flag. -/
structure AsmExprNode where
  output_list : List AsmOutput
  input_list : List Bool
  is_volatile : Bool
deriving DecidableEq, Repr

/-- Result of ir_gen_asm_expr: the invalid instruction or a built
IrInstructionAsm carrying return_count and the volatile flag. -/
inductive AsmGenResult where
  | invalidRes : AsmGenResult
  | asmRes : Nat → Bool → AsmGenResult
deriving DecidableEq, Repr

/-- The output loop of ir_gen_asm_expr (ir.cpp 2244-2269), threading
return_count and the error list: a return-typed output first bumps
return_count, then generates its type node (failure returns the
invalid instruction with no further diagnostic), then reports the
too-many-outputs error when return_count exceeds one; a named output
whose variable does not resolve reports the undeclared-identifier
error.  none in the first component encodes the invalid-instruction
returns. -/
def asmOutputsLoop : List AsmOutput → Nat → List String →
    Option Nat × List String
  | [], return_count, errs => (some return_count, errs)
  | out :: rest, return_count, errs =>
    if out.has_return_type then
      let return_count := return_count + 1
      if out.gen_ok = false then (none, errs)
      else if 1 < return_count then
        (none, errs ++ ["inline assembly allows up to one output value"])
      else asmOutputsLoop rest return_count errs
    else
      if out.var_found then asmOutputsLoop rest return_count errs
      else (none, errs ++ ["use of undeclared identifier"])

/-- Translation of ir_gen_asm_expr (ir.cpp 2232-2280): the
no-output-must-be-volatile check, the output loop, the input loop
(a failed input generation returns the invalid instruction) and the
final ir_build_asm. -/
def ir_gen_asm_expr (node : AsmExprNode) (errs : List String) :
    AsmGenResult × List String :=
  if node.is_volatile = false ∧ node.output_list.length = 0 then
    (.invalidRes,
     errs ++ ["assembly expression with no output must be marked volatile"])
  else
    match asmOutputsLoop node.output_list 0 errs with
    | (none, errs) => (.invalidRes, errs)
    | (some return_count, errs) =>
      if node.input_list.all (fun b => b) then
        (.asmRes return_count node.is_volatile, errs)
      else (.invalidRes, errs)

/-- With a second return-typed output in sight, the output loop never
returns a count: it exits through one of the invalid returns. -/
theorem asmOutputsLoop_none (l : List AsmOutput) :
    ∀ rc errs, rc ≤ 1 →
    2 ≤ rc + (l.filter (fun o => o.has_return_type)).length →
    (asmOutputsLoop l rc errs).1 = none := by
  induction l with
  | nil =>
    intro rc errs hrc h2
    simp only [List.filter_nil, List.length_nil] at h2
    omega
  | cons out rest ih =>
    intro rc errs hrc h2
    rw [asmOutputsLoop]
    by_cases hr : out.has_return_type = true
    · rw [if_pos hr]
      simp only [List.filter_cons, hr, if_true, List.length_cons] at h2
      by_cases hg : out.gen_ok = false
      · simp [hg]
      · rw [if_neg hg]
        by_cases hlt : 1 < rc + 1
        · rw [if_pos hlt]
        · rw [if_neg hlt]
          exact ih (rc + 1) errs (by omega) (by omega)
    · rw [if_neg hr]
      simp only [List.filter_cons, hr, if_false, Bool.false_eq_true, ite_false] at h2
      by_cases hv : out.var_found = true
      · rw [if_pos hv]
        exact ih rc errs hrc h2
      · rw [if_neg hv]

/-- When every nested generation succeeds and every named output
resolves, the output loop does report the too-many-outputs error on
the second return-typed output. -/
theorem asmOutputsLoop_reports (l : List AsmOutput) :
    ∀ rc errs, (∀ o ∈ l, o.gen_ok = true ∧ o.var_found = true) → rc ≤ 1 →
    2 ≤ rc + (l.filter (fun o => o.has_return_type)).length →
    "inline assembly allows up to one output value" ∈
      (asmOutputsLoop l rc errs).2 := by
  induction l with
  | nil =>
    intro rc errs _ hrc h2
    simp only [List.filter_nil, List.length_nil] at h2
    omega
  | cons out rest ih =>
    intro rc errs hok hrc h2
    have hout := hok out (by simp)
    have hrest : ∀ o ∈ rest, o.gen_ok = true ∧ o.var_found = true :=
      fun o ho => hok o (List.mem_cons_of_mem _ ho)
    rw [asmOutputsLoop]
    by_cases hr : out.has_return_type = true
    · rw [if_pos hr]
      simp only [List.filter_cons, hr, if_true, List.length_cons] at h2
      rw [if_neg (by simp [hout.1])]
      by_cases hlt : 1 < rc + 1
      · rw [if_pos hlt]
        simp
      · rw [if_neg hlt]
        exact ih (rc + 1) errs hrest (by omega) (by omega)
    · rw [if_neg hr]
      simp only [List.filter_cons, hr, if_false, Bool.false_eq_true, ite_false] at h2
      rw [if_pos hout.2]
      exact ih rc errs hrest hrc h2

/-- C10 counterexample: an asm node with two return-typed outputs
whose FIRST return-type node fails to generate returns the invalid
instruction WITHOUT reporting 'inline assembly allows up to one
output value' - the early return at ir.cpp 2250-2251 precedes the
return_count check at 2252-2256, so the claimed error is skipped. -/
theorem c10_asm_counterexample :
    ir_gen_asm_expr
      { output_list :=
          [{ has_return_type := true, gen_ok := false, var_found := true },
           { has_return_type := true, gen_ok := true, var_found := true }],
        input_list := [], is_volatile := false } [] =
      (AsmGenResult.invalidRes, []) :=
  rfl

/-- C10 (amended): for every asm AST node in which two or more
outputs carry a return type, ir_gen_asm_expr yields the invalid
instruction and never builds an Asm instruction; the specific error
'inline assembly allows up to one output value' is however only
reported when the nested generations encountered first all succeed -
a failing return-type generation or an unresolved output variable
returns the invalid instruction before the check, skipping the
message. -/
theorem c10_asm_amended (node : AsmExprNode) (errs : List String)
    (h2 : 2 ≤ (node.output_list.filter (fun o => o.has_return_type)).length) :
    (ir_gen_asm_expr node errs).1 = AsmGenResult.invalidRes ∧
    ((∀ o ∈ node.output_list, o.gen_ok = true ∧ o.var_found = true) →
      "inline assembly allows up to one output value" ∈
        (ir_gen_asm_expr node errs).2) := by
  have hguard : ¬(node.is_volatile = false ∧ node.output_list.length = 0) := by
    rintro ⟨_, hlen⟩
    rw [List.length_eq_zero] at hlen
    rw [hlen] at h2
    simp at h2
  have hnone := asmOutputsLoop_none node.output_list 0 errs (by omega) (by omega)
  rcases hl : asmOutputsLoop node.output_list 0 errs with ⟨res, errs2⟩
  rw [hl] at hnone
  simp only at hnone
  subst hnone
  rw [ir_gen_asm_expr, if_neg hguard, hl]
  refine ⟨rfl, fun hok => ?_⟩
  have hmem := asmOutputsLoop_reports node.output_list 0 errs hok (by omega) (by omega)
  rw [hl] at hmem
  simpa using hmem

/-- Witness for C10 amended: two successful return-typed outputs on a
volatile asm node yield the invalid instruction and the
too-many-outputs error. -/
theorem c10_asm_amended_witness :
    (ir_gen_asm_expr
      { output_list :=
          [{ has_return_type := true, gen_ok := true, var_found := true },
           { has_return_type := true, gen_ok := true, var_found := true }],
        input_list := [true], is_volatile := true } []).1 =
      AsmGenResult.invalidRes ∧
    "inline assembly allows up to one output value" ∈
      (ir_gen_asm_expr
        { output_list :=
            [{ has_return_type := true, gen_ok := true, var_found := true },
             { has_return_type := true, gen_ok := true, var_found := true }],
          input_list := [true], is_volatile := true } []).2 := by
  have h := c10_asm_amended
    { output_list :=
        [{ has_return_type := true, gen_ok := true, var_found := true },
         { has_return_type := true, gen_ok := true, var_found := true }],
      input_list := [true], is_volatile := true } [] (by decide)
  exact ⟨h.1, h.2 (by decide)⟩

end ZigIr
